import Mathlib

/-!
Shallow embedding of the flight/passenger/ticket record stores of the
Flight-Simulator-in-C repository (files `ticket.c`, `passenger.c`,
`flight.c`, headers `common.h`, `ticket.h`, `passenger.h`, `flight.h`),
together with proofs about the store operations and the text codecs.

Character data is modelled as `List Char`; the C standard-library
routines used by the code (`strtok`, `atoi`, `fscanf`/`sscanf` on the
formats that actually occur, `fgets` line splitting, `fprintf` decimal
and hex rendering) are given explicit executable models below.  Machine
integers are modelled as unbounded `Int`/`Nat`; bit-field assignment
truncation is made explicit where the C code performs it.
-/

namespace FlightSim

/-- Characters treated as whitespace by `isspace` in the C locale
(space, tab, newline, vertical tab, form feed, carriage return). -/
def isCSpace (c : Char) : Bool :=
  c = ' ' || c = '\t' || c = '\n' || c = '\x0b' || c = '\x0c' || c = '\r'

/-- Numeric value accumulated over a run of decimal digit characters,
as `atoi` / `fscanf` do. -/
def decValue (cs : List Char) : Nat :=
  cs.foldl (fun a c => 10 * a + (c.toNat - 48)) 0

/-- The digit characters at the front of the input. -/
def takeDigits (cs : List Char) : List Char :=
  cs.takeWhile (fun c => c.isDigit)

/-- The input with its leading digit run removed. -/
def dropDigits (cs : List Char) : List Char :=
  cs.dropWhile (fun c => c.isDigit)

/-- Model of C `atoi`: skip whitespace, optional sign, greedy digit run;
yields 0 when no digit is present.  Overflow is undefined behaviour in C
and is not modelled (the value is an unbounded `Int`). -/
def atoi (cs : List Char) : Int :=
  let s := cs.dropWhile isCSpace
  if s.head? = some '-' then -(decValue (takeDigits s.tail) : Int)
  else if s.head? = some '+' then (decValue (takeDigits s.tail) : Int)
  else (decValue (takeDigits s) : Int)

/-- Model of `fscanf(fp, "%d\n", &n)` on the remaining file contents:
skip whitespace, optionally signed digit run (failure when no digit
follows), then the `"\n"` directive consumes any further whitespace.
Returns the scanned value and the unconsumed remainder. -/
def scanfIntNl (cs : List Char) : Option (Int × List Char) :=
  let s := cs.dropWhile isCSpace
  if s.head? = some '-' then
    if takeDigits s.tail = [] then none
    else some (-(decValue (takeDigits s.tail) : Int),
               (dropDigits s.tail).dropWhile isCSpace)
  else if s.head? = some '+' then
    if takeDigits s.tail = [] then none
    else some ((decValue (takeDigits s.tail) : Int),
               (dropDigits s.tail).dropWhile isCSpace)
  else
    if takeDigits s = [] then none
    else some ((decValue (takeDigits s) : Int),
               (dropDigits s).dropWhile isCSpace)

/-- One `strtok` step: skip leading delimiters; `none` when nothing but
delimiters remains, otherwise the token (maximal run of non-delimiter
characters) and the rest of the buffer after the delimiter that ended
the token.  Passing the rest to the next step models the saved pointer
of successive `strtok(NULL, ...)` calls. -/
def strtok1 (delims : List Char) (s : List Char) : Option (List Char × List Char) :=
  let t := s.dropWhile (fun c => delims.contains c)
  if t.isEmpty then none
  else some (t.takeWhile (fun c => !delims.contains c),
             (t.dropWhile (fun c => !delims.contains c)).tail)

/-- Model of repeated `fgets` on a stream: the list of lines, each
including its terminating newline (the final line may lack one).
The C buffers (256 / 512 bytes) are never exceeded by lines written by
the save routines for representable stores, so the bounded buffer is
not modelled. -/
def fgetsLines : List Char → List (List Char)
  | [] => []
  | c :: cs =>
    if c = '\n' then ['\n'] :: fgetsLines cs
    else
      match fgetsLines cs with
      | [] => [[c]]
      | l :: ls => (c :: l) :: ls

/-- The character for the decimal digit `d < 10`. -/
def digitChar (d : Nat) : Char := Char.ofNat (48 + d)

/-- Digits of `n` (most significant first), with structural fuel so
that the kernel can evaluate it; `natDecAux_eq` relates it to
`Nat.digits`. -/
def natDecAux (fuel : Nat) (n : Nat) : List Char :=
  match fuel with
  | 0 => []
  | fuel + 1 => if n = 0 then [] else natDecAux fuel (n / 10) ++ [digitChar (n % 10)]

/-- Decimal rendering of a natural number, as `fprintf` `%d`/`%u`
produce it. -/
def natDecChars (n : Nat) : List Char :=
  if n = 0 then ['0'] else natDecAux n n

/-- Decimal rendering of a (machine) integer, as `fprintf` `%d`
produces it. -/
def intDecChars (i : Int) : List Char :=
  if i < 0 then '-' :: natDecChars (-i).toNat else natDecChars i.toNat

/-- The uppercase hex character for `d < 16`. -/
def hexDigitChar (d : Nat) : Char :=
  if d < 10 then Char.ofNat (48 + d) else Char.ofNat (55 + d)

/-- `fprintf(fp, "%02X", b)` for a byte value `b < 256`: exactly two
uppercase hex characters. -/
def hexByteChars (b : Nat) : List Char :=
  [hexDigitChar (b / 16), hexDigitChar (b % 16)]

/-- Value of a hex digit character, of either case. -/
def hexVal? (c : Char) : Option Nat :=
  if c.isDigit then some (c.toNat - 48)
  else if 'A' ≤ c ∧ c ≤ 'F' then some (c.toNat - 55)
  else if 'a' ≤ c ∧ c ≤ 'f' then some (c.toNat - 87)
  else none

/-- Model of `sscanf(p, "%2x", &v)` at a position of the seat-map token:
skip whitespace, then at most two hex digits; `none` when no hex digit
is present (the conversion fails).  The optionally-signed form `%x`
also accepts is not exercised by any file the program writes. -/
def sscanfHex2 (cs : List Char) : Option Nat :=
  match (cs.dropWhile isCSpace).take 2 with
  | [] => none
  | [c] => hexVal? c
  | c :: d :: _ =>
    match hexVal? c, hexVal? d with
    | some hc, some hd => some (16 * hc + hd)
    | some hc, none => some hc
    | none, _ => none

/-! ## Record types (`common.h`, `ticket.h`, `passenger.h`) -/

/-- `DateTime` of `common.h`: bit-fields `day:5, month:4, year:12,
hour:5, minute:6`.  The fields are kept as `Nat`; every write site
below applies the bit-field truncation explicitly. -/
structure DateTime where
  day : Nat
  month : Nat
  year : Nat
  hour : Nat
  minute : Nat
  deriving Repr, DecidableEq

/-- Assignment of five scanned `unsigned int` values to the `DateTime`
bit-fields: store into `unsigned int` (mod 2^32), then truncate to the
field width.  Since each width divides 32 this is one `emod`. -/
def mkDateTime (d mo y h mi : Int) : DateTime :=
  ⟨(d % 32).toNat, (mo % 16).toNat, (y % 4096).toNat,
   (h % 32).toNat, (mi % 64).toNat⟩

/-- `compareDateTime` of `flight.c`: difference of the first unequal
field, in the order year, month, day, hour, minute. -/
def compareDateTime (dt1 dt2 : DateTime) : Int :=
  if dt1.year ≠ dt2.year then (dt1.year : Int) - (dt2.year : Int)
  else if dt1.month ≠ dt2.month then (dt1.month : Int) - (dt2.month : Int)
  else if dt1.day ≠ dt2.day then (dt1.day : Int) - (dt2.day : Int)
  else if dt1.hour ≠ dt2.hour then (dt1.hour : Int) - (dt2.hour : Int)
  else if dt1.minute ≠ dt2.minute then (dt1.minute : Int) - (dt2.minute : Int)
  else 0

/-- `Ticket` of `ticket.h`: `int ticketID; char passengerName[100];
int flightID; int seatNo;`. -/
structure Ticket where
  ticketID : Int
  passengerName : String
  flightID : Int
  seatNo : Int
  deriving Repr, DecidableEq

/-- `Passenger` of `passenger.h`: `char name[100]; int age;
char passport[20]; int assignedFlightID; int assignedSeatNo;`. -/
structure Passenger where
  name : String
  age : Int
  passport : String
  assignedFlightID : Int
  assignedSeatNo : Int
  deriving Repr, DecidableEq

/-- `Flight` of `common.h`.  `status` is the enum's underlying `int`
(`loadFlights` casts an arbitrary `atoi` result into it); `seatMap` is
the 32-byte array `unsigned char seatMap[(250+7)/8]`. -/
structure Flight where
  flightID : Int
  flightName : String
  origin : String
  destination : String
  departure : DateTime
  arrival : DateTime
  status : Int
  availableSeats : Int
  seatMap : List Nat
  deriving Repr, DecidableEq

/-- `MAX_FLIGHTS` of `common.h`. -/
def MAX_FLIGHTS : Nat := 100

/-- `(MAX_PASSENGERS_PER_FLIGHT + 7) / 8` of `common.h`: the seat-map
byte count. -/
def SEATMAP_BYTES : Nat := 32

/-- `INITIAL_TICKET_CAPACITY` / `INITIAL_PASSENGER_CAPACITY`. -/
def INITIAL_CAPACITY : Nat := 10

/-- Diagnostics the load/add routines print; one constructor per
`printf` the model tracks. -/
inductive Msg where
  /-- "No ... data file found (...). Starting with empty ... list." -/
  | noDataFile
  /-- "Error reading ... count from .... File might be corrupted." -/
  | errorReadingCount
  /-- "Error reading <field>." -/
  | errField (field : String)
  /-- "Loaded <n> ... from ...". -/
  | loadedSummary (n : Nat)
  /-- "Warning: Loaded flight count (<n>) exceeds MAX_FLIGHTS (100). Truncating." -/
  | truncWarning (n : Int)
  deriving Repr, DecidableEq

/-- The index-returning linear scan all three stores use for removal:
first index whose element satisfies the key test, as the C `for` loop
with `foundIndex` computes it. -/
def linearSearchIdx {α : Type} (p : α → Bool) : List α → Option Nat
  | [] => none
  | a :: t => if p a then some 0 else (linearSearchIdx p t).map (· + 1)

/-! ## Ticket store (`ticket.c`) -/

/-- The ticket store globals: the first `globalTicketCount` entries of
`globalTickets` (the only observable ones), and
`globalTicketCapacity`. -/
structure TicketStore where
  tickets : List Ticket
  capacity : Int
  deriving Repr, DecidableEq

/-- Store state after `initializeTickets()`. -/
def initialTicketStore : TicketStore := ⟨[], (INITIAL_CAPACITY : Nat)⟩

/-- The console input `bookTicket` consumes: the passenger name line,
and the two `scanf("%d", _)` results (`none` models a failed match). -/
structure BookTicketInput where
  passengerName : String
  flightIDRead : Option Int
  seatNoRead : Option Int
  deriving Repr, DecidableEq

/-- `bookTicket` of `ticket.c`.  Returns the C return value (1 success,
0 failure) and the updated store.  The capacity-doubling `realloc` is
modelled as succeeding; note that a doubled capacity persists even when
a later input check fails, exactly as in the source. -/
def bookTicket (st : TicketStore) (inp : BookTicketInput) : Int × TicketStore :=
  let cap := if (st.tickets.length : Int) ≥ st.capacity then st.capacity * 2 else st.capacity
  let st1 : TicketStore := ⟨st.tickets, cap⟩
  let tid : Int := (st.tickets.length : Int) + 1
  match inp.flightIDRead with
  | none => (0, st1)
  | some fid =>
    if fid ≤ 0 then (0, st1)
    else
      match inp.seatNoRead with
      | none => (0, st1)
      | some seat =>
        if seat ≤ 0 then (0, st1)
        else (1, ⟨st.tickets ++ [⟨tid, inp.passengerName, fid, seat⟩], cap⟩)

/-- `cancelTicket` of `ticket.c`: guard against an empty list, validate
the scanned ID, linear scan for the first match, then shift-left
removal (`List.eraseIdx` is exactly the shift loop). -/
def cancelTicket (st : TicketStore) (ticketIDRead : Option Int) : Int × TicketStore :=
  if st.tickets.length = 0 then (0, st)
  else
    match ticketIDRead with
    | none => (0, st)
    | some tid =>
      if tid ≤ 0 then (0, st)
      else
        match linearSearchIdx (fun t => t.ticketID = tid) st.tickets with
        | none => (0, st)
        | some i => (1, ⟨st.tickets.eraseIdx i, st.capacity⟩)

/-- The linear scan by `ticketID` that `cancelTicket` performs (there is
no separate find operation for tickets in the source). -/
def findTicket (ts : List Ticket) (tid : Int) : Option Ticket :=
  ts.find? (fun t => t.ticketID = tid)

/-- One line of `saveTickets`:
`fprintf(fp, "%d,%s,%d,%d\n", ticketID, passengerName, flightID, seatNo)`. -/
def ticketLine (t : Ticket) : List Char :=
  intDecChars t.ticketID ++ ',' :: (t.passengerName.toList
    ++ ',' :: (intDecChars t.flightID ++ ',' :: (intDecChars t.seatNo ++ ['\n'])))

/-- `saveTickets` of `ticket.c`: the full file contents it writes (the
count line, then one line per ticket). -/
def saveTickets (st : TicketStore) : List Char :=
  intDecChars (st.tickets.length : Int) ++ '\n' :: (st.tickets.map ticketLine).flatten

/-- The per-line parse of the `loadTickets` loop body: the `strtok`
sequence over one `fgets` line, with `strncpy` truncation of the name
to `MAX_NAME_LEN - 1` characters. -/
def parseTicketLine (line : List Char) : Except Msg Ticket :=
  match strtok1 [','] line with
  | none => .error (.errField "ticketID")
  | some (tok1, r1) =>
    match strtok1 [','] r1 with
    | none => .error (.errField "passengerName")
    | some (tok2, r2) =>
      match strtok1 [','] r2 with
      | none => .error (.errField "flightID")
      | some (tok3, r3) =>
        match strtok1 ['\n'] r3 with
        | none => .error (.errField "seatNo")
        | some (tok4, _) =>
          .ok ⟨atoi tok1, String.mk (tok2.take 99), atoi tok3, atoi tok4⟩

/-- The `while (count < loadedCount && fgets(...))` loop of
`loadTickets`: parsed tickets in order, plus the diagnostic of the
first malformed line, at which the loop `break`s. -/
def ticketLoadLoop : Nat → List (List Char) → List Ticket × List Msg
  | 0, _ => ([], [])
  | _ + 1, [] => ([], [])
  | n + 1, line :: rest =>
    match parseTicketLine line with
    | .error m => ([], [m])
    | .ok t =>
      let (ts, ms) := ticketLoadLoop n rest
      (t :: ts, ms)

/-- `loadTickets` of `ticket.c`.  `file = none` models `fopen` failing
(missing file).  On a parsed count line the old array is freed and one
of exactly `loadedCount` slots is allocated (`capacity :=
loadedCount`), then the line loop fills the store.  Returns the C
return value, the new store state, and the printed diagnostics. -/
def loadTickets (st : TicketStore) (file : Option (List Char)) :
    Int × TicketStore × List Msg :=
  match file with
  | none => (0, ⟨[], st.capacity⟩, [.noDataFile])
  | some content =>
    match scanfIntNl content with
    | none => (0, st, [.errorReadingCount])
    | some (loadedCount, rest) =>
      let (ts, ms) := ticketLoadLoop loadedCount.toNat (fgetsLines rest)
      (1, ⟨ts, loadedCount⟩, ms ++ [.loadedSummary ts.length])

/-! ## Passenger store (`passenger.c`) -/

/-- The passenger store globals. -/
structure PassengerStore where
  passengers : List Passenger
  capacity : Int
  deriving Repr, DecidableEq

/-- Store state after `initializePassengers()`. -/
def initialPassengerStore : PassengerStore := ⟨[], (INITIAL_CAPACITY : Nat)⟩

/-- Console input of `addPassenger`: name line, `scanf("%d", &age)`
result, passport line. -/
structure AddPassengerInput where
  name : String
  ageRead : Option Int
  passport : String
  deriving Repr, DecidableEq

/-- `addPassenger` of `passenger.c`: capacity doubling when full
(`realloc` modelled as succeeding, and persisting even when a later
check fails), age validation, then the duplicate-passport scan. -/
def addPassenger (st : PassengerStore) (inp : AddPassengerInput) :
    Int × PassengerStore :=
  let cap := if (st.passengers.length : Int) ≥ st.capacity then st.capacity * 2 else st.capacity
  match inp.ageRead with
  | none => (0, ⟨st.passengers, cap⟩)
  | some age =>
    if age ≤ 0 then (0, ⟨st.passengers, cap⟩)
    else if st.passengers.any (fun p => p.passport = inp.passport) then
      (0, ⟨st.passengers, cap⟩)
    else
      (1, ⟨st.passengers ++ [⟨inp.name, age, inp.passport, 0, 0⟩], cap⟩)

/-- `removePassenger` of `passenger.c`: linear scan for the passport,
then shift-left removal. -/
def removePassenger (st : PassengerStore) (passportToRemove : String) :
    Int × PassengerStore :=
  if st.passengers.length = 0 then (0, st)
  else
    match linearSearchIdx (fun p => p.passport = passportToRemove) st.passengers with
    | none => (0, st)
    | some i => (1, ⟨st.passengers.eraseIdx i, st.capacity⟩)

/-- The linear scan by passport that `removePassenger` performs. -/
def findPassenger (ps : List Passenger) (passport : String) : Option Passenger :=
  ps.find? (fun p => p.passport = passport)

/-- One line of `savePassengers`: `fprintf(fp, "%s,%d,%s,%d,%d\n", ...)`. -/
def passengerLine (p : Passenger) : List Char :=
  p.name.toList ++ ',' :: (intDecChars p.age ++ ',' :: (p.passport.toList
    ++ ',' :: (intDecChars p.assignedFlightID ++ ',' :: (intDecChars p.assignedSeatNo ++ ['\n']))))

/-- `savePassengers` of `passenger.c`: the full file contents. -/
def savePassengers (st : PassengerStore) : List Char :=
  intDecChars (st.passengers.length : Int) ++ '\n' :: (st.passengers.map passengerLine).flatten

/-- The per-line parse of the `loadPassengers` loop body (name truncated
to 99 characters by `strncpy`, passport to 19). -/
def parsePassengerLine (line : List Char) : Except Msg Passenger :=
  match strtok1 [','] line with
  | none => .error (.errField "passenger name")
  | some (tok1, r1) =>
    match strtok1 [','] r1 with
    | none => .error (.errField "passenger age")
    | some (tok2, r2) =>
      match strtok1 [','] r2 with
      | none => .error (.errField "passenger passport")
      | some (tok3, r3) =>
        match strtok1 [','] r3 with
        | none => .error (.errField "assignedFlightID")
        | some (tok4, r4) =>
          match strtok1 ['\n'] r4 with
          | none => .error (.errField "assignedSeatNo")
          | some (tok5, _) =>
            .ok ⟨String.mk (tok1.take 99), atoi tok2, String.mk (tok3.take 19),
                 atoi tok4, atoi tok5⟩

/-- The line loop of `loadPassengers`. -/
def passengerLoadLoop : Nat → List (List Char) → List Passenger × List Msg
  | 0, _ => ([], [])
  | _ + 1, [] => ([], [])
  | n + 1, line :: rest =>
    match parsePassengerLine line with
    | .error m => ([], [m])
    | .ok p =>
      let (ps, ms) := passengerLoadLoop n rest
      (p :: ps, ms)

/-- `loadPassengers` of `passenger.c` (same structure as
`loadTickets`). -/
def loadPassengers (st : PassengerStore) (file : Option (List Char)) :
    Int × PassengerStore × List Msg :=
  match file with
  | none => (0, ⟨[], st.capacity⟩, [.noDataFile])
  | some content =>
    match scanfIntNl content with
    | none => (0, st, [.errorReadingCount])
    | some (loadedCount, rest) =>
      let (ps, ms) := passengerLoadLoop loadedCount.toNat (fgetsLines rest)
      (1, ⟨ps, loadedCount⟩, ms ++ [.loadedSummary ps.length])

/-! ## Flight store (`flight.c`) -/

/-- `compareFlightsByDeparture`, the `qsort` comparator. -/
def compareFlightsByDeparture (a b : Flight) : Int :=
  compareDateTime a.departure b.departure

/-- Console input of `addFlight`; each `scanf` result is `none` when
the match count check fails. -/
structure AddFlightInput where
  flightIDRead : Option Int
  flightName : String
  origin : String
  destination : String
  depRead : Option (Int × Int × Int × Int × Int)
  arrRead : Option (Int × Int × Int × Int × Int)
  statusRead : Option Int
  seatsRead : Option Int
  deriving Repr, DecidableEq

/-- Which check of `addFlight` failed; each constructor corresponds to
one error `printf` of the source. -/
inductive AddErr where
  | limitReached
  | invalidID
  | duplicateID
  | invalidDeparture
  | invalidArrival
  | arrivalBeforeDeparture
  | invalidStatus
  | invalidSeats
  deriving Repr, DecidableEq

/-- `addFlight` of `flight.c`, with its checks in source order.  Note
the source validates the flight ID only with `scanf(...) != 1` — there
is no positivity check on the ID itself. -/
def addFlight (flights : List Flight) (inp : AddFlightInput) :
    Int × List Flight × Option AddErr :=
  if flights.length ≥ MAX_FLIGHTS then (0, flights, some .limitReached)
  else
    match inp.flightIDRead with
    | none => (0, flights, some .invalidID)
    | some fid =>
      if flights.any (fun f => f.flightID = fid) then (0, flights, some .duplicateID)
      else
        match inp.depRead with
        | none => (0, flights, some .invalidDeparture)
        | some (dd, dmo, dy, dh, dmi) =>
          match inp.arrRead with
          | none => (0, flights, some .invalidArrival)
          | some (ad, amo, ay, ah, ami) =>
            let dep := mkDateTime dd dmo dy dh dmi
            let arr := mkDateTime ad amo ay ah ami
            if compareDateTime dep arr > 0 then
              (0, flights, some .arrivalBeforeDeparture)
            else
              match inp.statusRead with
              | none => (0, flights, some .invalidStatus)
              | some status =>
                if status < 0 ∨ status > 2 then (0, flights, some .invalidStatus)
                else
                  match inp.seatsRead with
                  | none => (0, flights, some .invalidSeats)
                  | some seats =>
                    if seats ≤ 0 then (0, flights, some .invalidSeats)
                    else
                      (1, flights ++ [⟨fid, inp.flightName, inp.origin,
                        inp.destination, dep, arr, status, seats,
                        List.replicate SEATMAP_BYTES 0⟩], none)

/-- `searchFlight` of `flight.c`: linear scan by flight ID; `none`
models the `NULL` return (no flights, or not found). -/
def searchFlight (flights : List Flight) (flightID : Int) : Option Flight :=
  flights.find? (fun f => f.flightID = flightID)

/-- `deleteFlight` of `flight.c`: linear scan, then shift-left removal. -/
def deleteFlight (flights : List Flight) (flightID : Int) : Int × List Flight :=
  if flights.length = 0 then (0, flights)
  else
    match linearSearchIdx (fun f => f.flightID = flightID) flights with
    | none => (0, flights)
    | some i => (1, flights.eraseIdx i)

/-- The non-strict order induced by the `qsort` comparator. -/
def flightLeByDeparture (a b : Flight) : Prop := compareFlightsByDeparture a b ≤ 0

instance : DecidableRel flightLeByDeparture := fun a b => by
  unfold flightLeByDeparture
  infer_instance

/-- `sortFlightsByDeparture` of `flight.c`: `qsort` with
`compareFlightsByDeparture`.  `qsort` guarantees a permutation ordered
by the comparator; the model realises it with a comparison sort
(insertion sort) over the comparator's non-strict order. -/
def sortFlightsByDeparture (flights : List Flight) : Int × List Flight :=
  if flights.length ≤ 1 then (0, flights)
  else (1, flights.insertionSort flightLeByDeparture)

/-- The `"%u %u %u %u %u"` rendering of a `DateTime` in `saveFlights`. -/
def dateTimeChars (dt : DateTime) : List Char :=
  natDecChars dt.day ++ ' ' :: (natDecChars dt.month ++ ' ' :: (natDecChars dt.year
    ++ ' ' :: (natDecChars dt.hour ++ ' ' :: natDecChars dt.minute)))

/-- The seat-map hex string of `saveFlights`: each byte as two
uppercase hex characters, no separators. -/
def seatMapHexChars (sm : List Nat) : List Char :=
  (sm.map hexByteChars).flatten

/-- One line of `saveFlights`. -/
def flightLine (f : Flight) : List Char :=
  intDecChars f.flightID ++ ',' :: (f.flightName.toList ++ ',' :: (f.origin.toList
    ++ ',' :: (f.destination.toList ++ ',' :: (dateTimeChars f.departure
    ++ ',' :: (dateTimeChars f.arrival ++ ',' :: (intDecChars f.status
    ++ ',' :: (intDecChars f.availableSeats ++ ',' :: (seatMapHexChars f.seatMap ++ ['\n']))))))))

/-- `saveFlights` of `flight.c`: the full file contents. -/
def saveFlights (flights : List Flight) : List Char :=
  intDecChars (flights.length : Int) ++ '\n' :: (flights.map flightLine).flatten

/-- One `%u` conversion of `sscanf`: skip whitespace, optionally signed
digit run (the value is converted through `unsigned int`, which the
caller then truncates to the bit-field width). -/
def sscanfU (cs : List Char) : Option (Int × List Char) :=
  let s := cs.dropWhile isCSpace
  if s.head? = some '-' then
    if takeDigits s.tail = [] then none
    else some (-(decValue (takeDigits s.tail) : Int), dropDigits s.tail)
  else if s.head? = some '+' then
    if takeDigits s.tail = [] then none
    else some ((decValue (takeDigits s.tail) : Int), dropDigits s.tail)
  else
    if takeDigits s = [] then none
    else some ((decValue (takeDigits s) : Int), dropDigits s)

/-- `sscanf(token, "%u %u %u %u %u", ...)` on a date/time token:
all five conversions must succeed (`== 5`). -/
def sscanfU5 (cs : List Char) : Option (Int × Int × Int × Int × Int) :=
  match sscanfU cs with
  | none => none
  | some (a, r1) =>
    match sscanfU r1 with
    | none => none
    | some (b, r2) =>
      match sscanfU r2 with
      | none => none
      | some (c, r3) =>
        match sscanfU r3 with
        | none => none
        | some (d, r4) =>
          match sscanfU r4 with
          | none => none
          | some (e, _) => some (a, b, c, d, e)

/-- The seat-map byte loop of `loadFlights`: for each of the 32 bytes,
`sscanf(token + j*2, "%2x", &v)`; a failed conversion stores 0 and the
loop continues (it does not abort the line). -/
def parseSeatMap (tok : List Char) : List Nat :=
  (List.range SEATMAP_BYTES).map (fun j =>
    match sscanfHex2 (tok.drop (2 * j)) with
    | none => 0
    | some v => v % 256)

/-- The per-line parse of the `loadFlights` loop body. -/
def parseFlightLine (line : List Char) : Except Msg Flight :=
  match strtok1 [','] line with
  | none => .error (.errField "flightID")
  | some (tok1, r1) =>
    match strtok1 [','] r1 with
    | none => .error (.errField "flightName")
    | some (tok2, r2) =>
      match strtok1 [','] r2 with
      | none => .error (.errField "origin")
      | some (tok3, r3) =>
        match strtok1 [','] r3 with
        | none => .error (.errField "destination")
        | some (tok4, r4) =>
          match strtok1 [','] r4 with
          | none => .error (.errField "departure DateTime")
          | some (tok5, r5) =>
            match sscanfU5 tok5 with
            | none => .error (.errField "departure DateTime")
            | some (dd, dmo, dy, dh, dmi) =>
              match strtok1 [','] r5 with
              | none => .error (.errField "arrival DateTime")
              | some (tok6, r6) =>
                match sscanfU5 tok6 with
                | none => .error (.errField "arrival DateTime")
                | some (ad, amo, ay, ah, ami) =>
                  match strtok1 [','] r6 with
                  | none => .error (.errField "status")
                  | some (tok7, r7) =>
                    match strtok1 [','] r7 with
                    | none => .error (.errField "availableSeats")
                    | some (tok8, r8) =>
                      match strtok1 ['\n'] r8 with
                      | none => .error (.errField "seatMap")
                      | some (tok9, _) =>
                        .ok ⟨atoi tok1, String.mk (tok2.take 99),
                          String.mk (tok3.take 99), String.mk (tok4.take 99),
                          mkDateTime dd dmo dy dh dmi,
                          mkDateTime ad amo ay ah ami,
                          atoi tok7, atoi tok8, parseSeatMap tok9⟩

/-- The line loop of `loadFlights`. -/
def flightLoadLoop : Nat → List (List Char) → List Flight × List Msg
  | 0, _ => ([], [])
  | _ + 1, [] => ([], [])
  | n + 1, line :: rest =>
    match parseFlightLine line with
    | .error m => ([], [m])
    | .ok f =>
      let (fs, ms) := flightLoadLoop n rest
      (f :: fs, ms)

/-- `loadFlights` of `flight.c`: like the other loaders, but a declared
count above `MAX_FLIGHTS` is truncated to 100 with a warning, and the
store is the caller's `Flight **`/count pair (no capacity variable). -/
def loadFlights (flights : List Flight) (file : Option (List Char)) :
    Int × List Flight × List Msg :=
  match file with
  | none => (0, [], [.noDataFile])
  | some content =>
    match scanfIntNl content with
    | none => (0, flights, [.errorReadingCount])
    | some (declaredCount, rest) =>
      let truncMs : List Msg :=
        if declaredCount > (MAX_FLIGHTS : Nat) then [.truncWarning declaredCount] else []
      let loadedCount : Int :=
        if declaredCount > (MAX_FLIGHTS : Nat) then (MAX_FLIGHTS : Nat) else declaredCount
      let (fs, ms) := flightLoadLoop loadedCount.toNat (fgetsLines rest)
      (1, fs, truncMs ++ ms ++ [.loadedSummary fs.length])

/-! ## Combined program state (`main.c` globals) -/

/-- The pieces of program state relevant to the frame property of
booking: the flight array of `main` and the ticket store globals. -/
structure SysState where
  flights : List Flight
  ticketStore : TicketStore
  deriving Repr, DecidableEq

/-- `bookTicket` as a transition on the combined state: the source
function reads and writes only the ticket globals. -/
def bookTicketSys (sys : SysState) (inp : BookTicketInput) : Int × SysState :=
  let (r, st) := bookTicket sys.ticketStore inp
  (r, ⟨sys.flights, st⟩)

/-! ## Representability predicates: the C type invariants of stored
records (field widths of the `char[]` buffers, `int` range, bit-field
ranges), together with the free-text restrictions of the codec. -/

/-- Range of a C `int`. -/
def int32 (i : Int) : Prop := -2147483648 ≤ i ∧ i ≤ 2147483647

/-- A free-text field the line format can carry: nonempty, and without
the delimiter or newline. -/
def cleanField (s : String) : Prop :=
  s.toList ≠ [] ∧ ∀ c ∈ s.toList, c ≠ ',' ∧ c ≠ '\n'

/-- The field does not begin with whitespace (relevant only to the
field that opens the first record line after the count line). -/
def leadOk (s : String) : Prop := ∀ c ∈ s.toList.take 1, isCSpace c = false

/-- Bit-field ranges of a stored `DateTime`. -/
def dtRep (dt : DateTime) : Prop :=
  dt.day < 32 ∧ dt.month < 16 ∧ dt.year < 4096 ∧ dt.hour < 32 ∧ dt.minute < 64

/-- A ticket the C data model can hold, with codec-clean text. -/
def cleanTicket (t : Ticket) : Prop :=
  cleanField t.passengerName ∧ t.passengerName.toList.length ≤ 99 ∧
    int32 t.ticketID ∧ int32 t.flightID ∧ int32 t.seatNo

/-- A passenger the C data model can hold, with codec-clean text. -/
def cleanPassenger (p : Passenger) : Prop :=
  cleanField p.name ∧ p.name.toList.length ≤ 99 ∧ leadOk p.name ∧
    cleanField p.passport ∧ p.passport.toList.length ≤ 19 ∧
    int32 p.age ∧ int32 p.assignedFlightID ∧ int32 p.assignedSeatNo

/-- A flight the C data model can hold, with codec-clean text. -/
def cleanFlight (f : Flight) : Prop :=
  int32 f.flightID ∧
    cleanField f.flightName ∧ f.flightName.toList.length ≤ 99 ∧
    cleanField f.origin ∧ f.origin.toList.length ≤ 99 ∧
    cleanField f.destination ∧ f.destination.toList.length ≤ 99 ∧
    dtRep f.departure ∧ dtRep f.arrival ∧
    int32 f.status ∧ int32 f.availableSeats ∧
    f.seatMap.length = SEATMAP_BYTES ∧ ∀ b ∈ f.seatMap, b < 256

instance (i : Int) : Decidable (int32 i) := by unfold int32; infer_instance
instance (s : String) : Decidable (cleanField s) := by unfold cleanField; infer_instance
instance (s : String) : Decidable (leadOk s) := by unfold leadOk; infer_instance
instance (dt : DateTime) : Decidable (dtRep dt) := by unfold dtRep; infer_instance
instance (t : Ticket) : Decidable (cleanTicket t) := by unfold cleanTicket; infer_instance
instance (p : Passenger) : Decidable (cleanPassenger p) := by unfold cleanPassenger; infer_instance
instance (f : Flight) : Decidable (cleanFlight f) := by unfold cleanFlight; infer_instance

/-! ## Character and decimal-rendering lemmas -/

theorem digitChar_toNat {d : Nat} (h : d < 10) : (digitChar d).toNat = 48 + d := by
  interval_cases d <;> decide

theorem digitChar_isDigit {d : Nat} (h : d < 10) : (digitChar d).isDigit = true := by
  interval_cases d <;> decide

theorem isDigit_not_space {c : Char} (h : c.isDigit = true) : isCSpace c = false := by
  rcases hc : isCSpace c with _ | _
  · rfl
  · exfalso
    simp only [isCSpace, Bool.or_eq_true, decide_eq_true_eq] at hc
    rcases hc with ((((rfl | rfl) | rfl) | rfl) | rfl) | rfl <;> exact absurd h (by decide)

theorem isDigit_ne {c : Char} (h : c.isDigit = true) :
    c ≠ ',' ∧ c ≠ '\n' ∧ c ≠ '-' ∧ c ≠ '+' := by
  refine ⟨?_, ?_, ?_, ?_⟩ <;> rintro rfl <;> exact absurd h (by decide)

theorem natDecAux_eq (fuel : Nat) : ∀ n : Nat, n ≤ fuel →
    natDecAux fuel n = ((Nat.digits 10 n).reverse).map digitChar := by
  induction fuel with
  | zero =>
    intro n hn
    have : n = 0 := by omega
    subst this
    simp [natDecAux]
  | succ f ih =>
    intro n hn
    by_cases hz : n = 0
    · subst hz
      simp [natDecAux]
    · have hdiv : n / 10 ≤ f := by omega
      rw [show natDecAux (f + 1) n = natDecAux f (n / 10) ++ [digitChar (n % 10)] from by
          simp [natDecAux, hz],
        ih (n / 10) hdiv,
        Nat.digits_def' (by norm_num : (1 : Nat) < 10) (Nat.pos_of_ne_zero hz),
        List.reverse_cons, List.map_append]
      rfl

theorem natDecChars_eq (n : Nat) :
    natDecChars n = if n = 0 then ['0'] else ((Nat.digits 10 n).reverse).map digitChar := by
  unfold natDecChars
  by_cases hz : n = 0
  · simp [hz]
  · simp [hz, natDecAux_eq n n (le_refl n)]

theorem natDecChars_digits {n : Nat} : ∀ c ∈ natDecChars n, c.isDigit = true := by
  intro c hc
  rw [natDecChars_eq] at hc
  split at hc
  · simp only [List.mem_singleton] at hc
    subst hc; decide
  · obtain ⟨d, hd, rfl⟩ := List.mem_map.mp hc
    exact digitChar_isDigit (Nat.digits_lt_base (by norm_num) (List.mem_reverse.mp hd))

theorem natDecChars_ne_nil (n : Nat) : natDecChars n ≠ [] := by
  rw [natDecChars_eq]
  split
  · simp
  · intro hbad
    have hlen := congrArg List.length hbad
    simp only [List.length_map, List.length_reverse, List.length_nil] at hlen
    exact absurd (List.length_eq_zero.mp hlen) (Nat.digits_ne_nil_iff_ne_zero.mpr (by assumption))

theorem foldl_decDigits (l : List Nat) (hl : ∀ d ∈ l, d < 10) (acc : Nat) :
    List.foldl (fun a c => 10 * a + (c.toNat - 48)) acc (l.map digitChar)
      = List.foldl (fun a d => 10 * a + d) acc l := by
  induction l generalizing acc with
  | nil => rfl
  | cons d t ih =>
    simp only [List.map_cons, List.foldl_cons]
    rw [digitChar_toNat (hl d (by simp)), Nat.add_sub_cancel_left]
    exact ih (fun x hx => hl x (List.mem_cons_of_mem _ hx)) _

theorem foldl_ofDigits (l : List Nat) (acc : Nat) :
    List.foldl (fun a d => 10 * a + d) acc l.reverse
      = acc * 10 ^ l.length + Nat.ofDigits 10 l := by
  induction l generalizing acc with
  | nil => simp
  | cons d t ih =>
    simp only [List.reverse_cons, List.foldl_append, List.foldl_cons, List.foldl_nil,
      Nat.ofDigits_cons, List.length_cons, ih]
    ring

theorem decValue_natDecChars (n : Nat) : decValue (natDecChars n) = n := by
  rw [natDecChars_eq]
  unfold decValue
  split
  · subst ‹n = 0›; rfl
  · rw [foldl_decDigits _ (fun d hd => Nat.digits_lt_base (by norm_num) (List.mem_reverse.mp hd)),
      foldl_ofDigits, Nat.ofDigits_digits]
    simp

theorem mem_intDecChars {i : Int} {c : Char} (hc : c ∈ intDecChars i) :
    c.isDigit = true ∨ c = '-' := by
  unfold intDecChars at hc
  split at hc
  · rcases List.mem_cons.mp hc with rfl | h
    · exact Or.inr rfl
    · exact Or.inl (natDecChars_digits _ h)
  · exact Or.inl (natDecChars_digits _ hc)

theorem intDecChars_ne_nil (i : Int) : intDecChars i ≠ [] := by
  unfold intDecChars
  split
  · simp
  · exact natDecChars_ne_nil _

theorem intDecChars_ne_comma {i : Int} : ∀ c ∈ intDecChars i, c ≠ ',' := by
  intro c hc
  rcases mem_intDecChars hc with h | rfl
  · exact (isDigit_ne h).1
  · decide

theorem intDecChars_ne_nl {i : Int} : ∀ c ∈ intDecChars i, c ≠ '\n' := by
  intro c hc
  rcases mem_intDecChars hc with h | rfl
  · exact (isDigit_ne h).2.1
  · decide

theorem intDecChars_not_space {i : Int} : ∀ c ∈ intDecChars i, isCSpace c = false := by
  intro c hc
  rcases mem_intDecChars hc with h | rfl
  · exact isDigit_not_space h
  · decide


/-! ## Lemmas about the C library models -/

theorem takeWhile_append_all {α : Type} {p : α → Bool} {xs ys : List α}
    (h : ∀ a ∈ xs, p a = true) :
    (xs ++ ys).takeWhile p = xs ++ ys.takeWhile p := by
  induction xs with
  | nil => rfl
  | cons a t ih =>
    rw [List.cons_append, List.takeWhile_cons_of_pos (h a (by simp)),
      ih (fun x hx => h x (List.mem_cons_of_mem _ hx)), List.cons_append]

theorem dropWhile_append_all {α : Type} {p : α → Bool} {xs ys : List α}
    (h : ∀ a ∈ xs, p a = true) :
    (xs ++ ys).dropWhile p = ys.dropWhile p := by
  induction xs with
  | nil => rfl
  | cons a t ih =>
    rw [List.cons_append, List.dropWhile_cons_of_pos (h a (by simp))]
    exact ih (fun x hx => h x (List.mem_cons_of_mem _ hx))

theorem takeWhile_eq_self_of_all {α : Type} {p : α → Bool} {xs : List α}
    (h : ∀ a ∈ xs, p a = true) : xs.takeWhile p = xs :=
  List.takeWhile_eq_self_iff.mpr h

theorem dropWhile_eq_nil_of_all {α : Type} {p : α → Bool} {xs : List α}
    (h : ∀ a ∈ xs, p a = true) : xs.dropWhile p = [] :=
  List.dropWhile_eq_nil_iff.mpr h

theorem natCast_toNat (n : Nat) : ((n : Int)).toNat = n := by simp

theorem atoi_intDecChars (i : Int) : atoi (intDecChars i) = i := by
  unfold atoi intDecChars
  split
  case isTrue hneg =>
    have h1 : List.dropWhile isCSpace ('-' :: natDecChars (-i).toNat)
        = '-' :: natDecChars (-i).toNat := by
      rw [List.dropWhile_cons_of_neg (by decide)]
    rw [h1]
    simp only [List.head?_cons, List.tail_cons]
    rw [if_pos trivial]
    unfold takeDigits
    rw [takeWhile_eq_self_of_all natDecChars_digits, decValue_natDecChars]
    omega
  case isFalse hpos =>
    obtain ⟨c, cs, hcons⟩ := List.exists_cons_of_ne_nil (natDecChars_ne_nil i.toNat)
    have hcmem : c ∈ natDecChars i.toNat := by rw [hcons]; exact List.mem_cons_self c cs
    have hcdig : c.isDigit = true := natDecChars_digits c hcmem
    have h1 : List.dropWhile isCSpace (natDecChars i.toNat) = natDecChars i.toNat := by
      rw [hcons]
      rw [List.dropWhile_cons_of_neg (by rw [isDigit_not_space hcdig]; decide)]
    rw [h1]
    have h2 : (natDecChars i.toNat).head? = some c := by rw [hcons]; rfl
    rw [if_neg (by rw [h2]; simp only [Option.some.injEq]; exact (isDigit_ne hcdig).2.2.1),
      if_neg (by rw [h2]; simp only [Option.some.injEq]; exact (isDigit_ne hcdig).2.2.2)]
    unfold takeDigits
    rw [takeWhile_eq_self_of_all natDecChars_digits, decValue_natDecChars]
    omega


theorem scanfIntNl_countLine (n : Nat) (body : List Char)
    (hbody : ∀ c ∈ body.take 1, isCSpace c = false) :
    scanfIntNl (intDecChars (n : Int) ++ '\n' :: body) = some ((n : Int), body) := by
  have hid : intDecChars (n : Int) = natDecChars n := by
    unfold intDecChars
    rw [if_neg (by omega), natCast_toNat]
  obtain ⟨c, cs, hcons⟩ := List.exists_cons_of_ne_nil (natDecChars_ne_nil n)
  have hcmem : c ∈ natDecChars n := by rw [hcons]; exact List.mem_cons_self c cs
  have hcdig : c.isDigit = true := natDecChars_digits c hcmem
  unfold scanfIntNl
  rw [hid]
  have h1 : List.dropWhile isCSpace (natDecChars n ++ '\n' :: body)
      = natDecChars n ++ '\n' :: body := by
    rw [hcons, List.cons_append,
      List.dropWhile_cons_of_neg (by rw [isDigit_not_space hcdig]; decide)]
  rw [h1]
  have h2 : (natDecChars n ++ '\n' :: body).head? = some c := by
    rw [hcons]; rfl
  rw [if_neg (by rw [h2]; simp only [Option.some.injEq]; exact (isDigit_ne hcdig).2.2.1),
    if_neg (by rw [h2]; simp only [Option.some.injEq]; exact (isDigit_ne hcdig).2.2.2)]
  have htake : takeDigits (natDecChars n ++ '\n' :: body) = natDecChars n := by
    unfold takeDigits
    rw [takeWhile_append_all natDecChars_digits, List.takeWhile_cons_of_neg (by decide),
      List.append_nil]
  have hdrop : dropDigits (natDecChars n ++ '\n' :: body) = '\n' :: body := by
    unfold dropDigits
    rw [dropWhile_append_all natDecChars_digits, List.dropWhile_cons_of_neg (by decide)]
  rw [htake, hdrop, if_neg (natDecChars_ne_nil n), decValue_natDecChars,
    List.dropWhile_cons_of_pos (by decide)]
  cases body with
  | nil => rfl
  | cons b bs =>
    rw [List.dropWhile_cons_of_neg (by rw [hbody b (by simp)]; decide)]

theorem strtok1_append {delims xs ys : List Char} {d : Char}
    (hne : xs ≠ []) (hx : ∀ c ∈ xs, c ∉ delims) (hd : d ∈ delims) :
    strtok1 delims (xs ++ d :: ys) = some (xs, ys) := by
  obtain ⟨a, t, rfl⟩ := List.exists_cons_of_ne_nil hne
  unfold strtok1
  rw [List.cons_append, List.dropWhile_cons_of_neg (by simp [hx a (by simp)])]
  simp only [List.isEmpty_cons, Bool.false_eq_true, if_false]
  rw [← List.cons_append,
    @takeWhile_append_all Char (fun c => !delims.contains c) (a :: t) (d :: ys)
      (fun c hc => by simp [hx c hc]),
    List.takeWhile_cons_of_neg (by simp [hd]),
    @dropWhile_append_all Char (fun c => !delims.contains c) (a :: t) (d :: ys)
      (fun c hc => by simp [hx c hc]),
    List.dropWhile_cons_of_neg (by simp [hd]),
    List.append_nil, List.tail_cons]

theorem strtok1_last {delims xs : List Char} (hne : xs ≠ [])
    (hx : ∀ c ∈ xs, c ∉ delims) :
    strtok1 delims xs = some (xs, []) := by
  obtain ⟨a, t, rfl⟩ := List.exists_cons_of_ne_nil hne
  unfold strtok1
  rw [List.dropWhile_cons_of_neg (by simp [hx a (by simp)])]
  simp only [List.isEmpty_cons, Bool.false_eq_true, if_false]
  rw [takeWhile_eq_self_of_all (fun c hc => by simp [hx c hc]),
    dropWhile_eq_nil_of_all (fun c hc => by simp [hx c hc])]
  rfl

theorem fgetsLines_append_line {l rest : List Char} (hl : '\n' ∉ l) :
    fgetsLines (l ++ '\n' :: rest) = (l ++ ['\n']) :: fgetsLines rest := by
  induction l with
  | nil => simp [fgetsLines]
  | cons c t ih =>
    have hc : c ≠ '\n' := fun h => hl (h ▸ List.mem_cons_self c t)
    have ht : '\n' ∉ t := fun h => hl (List.mem_cons_of_mem _ h)
    simp only [List.cons_append, fgetsLines, if_neg hc, List.append_eq, ih ht]

theorem fgetsLines_lines (ls : List (List Char))
    (h : ∀ l ∈ ls, ∃ b, l = b ++ ['\n'] ∧ '\n' ∉ b) :
    fgetsLines ls.flatten = ls := by
  induction ls with
  | nil => rfl
  | cons l t ih =>
    obtain ⟨b, rfl, hb⟩ := h l (by simp)
    rw [List.flatten_cons, List.append_assoc,
      show ['\n'] ++ t.flatten = '\n' :: t.flatten from rfl,
      fgetsLines_append_line hb, ih (fun x hx => h x (List.mem_cons_of_mem _ hx))]


/-! ## Per-line codec round-trip lemmas -/

theorem not_mem_singleton_of_ne {c x : Char} (h : c ≠ x) : c ∉ ([x] : List Char) := by
  simp [h]

theorem string_mk_toList (s : String) : String.mk s.toList = s := by
  cases s; rfl

theorem parseTicketLine_ticketLine (t : Ticket) (h : cleanTicket t) :
    parseTicketLine (ticketLine t) = .ok t := by
  obtain ⟨⟨hne, hcs⟩, hlen, _⟩ := h
  have h1 : strtok1 [','] (ticketLine t)
      = some (intDecChars t.ticketID,
          t.passengerName.toList ++ ',' :: (intDecChars t.flightID
            ++ ',' :: (intDecChars t.seatNo ++ ['\n']))) := by
    unfold ticketLine
    exact strtok1_append (intDecChars_ne_nil _)
      (fun c hc => not_mem_singleton_of_ne (intDecChars_ne_comma c hc))
      (show (',' : Char) ∈ [','] by simp)
  have h2 : strtok1 [','] (t.passengerName.toList ++ ',' :: (intDecChars t.flightID
        ++ ',' :: (intDecChars t.seatNo ++ ['\n'])))
      = some (t.passengerName.toList,
          intDecChars t.flightID ++ ',' :: (intDecChars t.seatNo ++ ['\n'])) :=
    strtok1_append hne (fun c hc => not_mem_singleton_of_ne (hcs c hc).1)
      (show (',' : Char) ∈ [','] by simp)
  have h3 : strtok1 [','] (intDecChars t.flightID ++ ',' :: (intDecChars t.seatNo ++ ['\n']))
      = some (intDecChars t.flightID, intDecChars t.seatNo ++ ['\n']) :=
    strtok1_append (intDecChars_ne_nil _)
      (fun c hc => not_mem_singleton_of_ne (intDecChars_ne_comma c hc))
      (show (',' : Char) ∈ [','] by simp)
  have h4 : strtok1 ['\n'] (intDecChars t.seatNo ++ ['\n'])
      = some (intDecChars t.seatNo, []) :=
    strtok1_append (intDecChars_ne_nil _)
      (fun c hc => not_mem_singleton_of_ne (intDecChars_ne_nl c hc))
      (show ('\n' : Char) ∈ ['\n'] by simp)
  simp only [parseTicketLine, h1, h2, h3, h4, atoi_intDecChars,
    List.take_of_length_le hlen, string_mk_toList]


theorem parsePassengerLine_passengerLine (p : Passenger) (h : cleanPassenger p) :
    parsePassengerLine (passengerLine p) = .ok p := by
  obtain ⟨⟨hne, hcs⟩, hlen, _, ⟨hpne, hpcs⟩, hplen, _⟩ := h
  have h1 : strtok1 [','] (passengerLine p)
      = some (p.name.toList,
          intDecChars p.age ++ ',' :: (p.passport.toList
            ++ ',' :: (intDecChars p.assignedFlightID
              ++ ',' :: (intDecChars p.assignedSeatNo ++ ['\n'])))) := by
    unfold passengerLine
    exact strtok1_append hne (fun c hc => not_mem_singleton_of_ne (hcs c hc).1)
      (show (',' : Char) ∈ [','] by simp)
  have h2 : strtok1 [','] (intDecChars p.age ++ ',' :: (p.passport.toList
        ++ ',' :: (intDecChars p.assignedFlightID
          ++ ',' :: (intDecChars p.assignedSeatNo ++ ['\n']))))
      = some (intDecChars p.age, p.passport.toList
          ++ ',' :: (intDecChars p.assignedFlightID
            ++ ',' :: (intDecChars p.assignedSeatNo ++ ['\n']))) :=
    strtok1_append (intDecChars_ne_nil _)
      (fun c hc => not_mem_singleton_of_ne (intDecChars_ne_comma c hc))
      (show (',' : Char) ∈ [','] by simp)
  have h3 : strtok1 [','] (p.passport.toList ++ ',' :: (intDecChars p.assignedFlightID
        ++ ',' :: (intDecChars p.assignedSeatNo ++ ['\n'])))
      = some (p.passport.toList, intDecChars p.assignedFlightID
          ++ ',' :: (intDecChars p.assignedSeatNo ++ ['\n'])) :=
    strtok1_append hpne (fun c hc => not_mem_singleton_of_ne (hpcs c hc).1)
      (show (',' : Char) ∈ [','] by simp)
  have h4 : strtok1 [','] (intDecChars p.assignedFlightID
        ++ ',' :: (intDecChars p.assignedSeatNo ++ ['\n']))
      = some (intDecChars p.assignedFlightID, intDecChars p.assignedSeatNo ++ ['\n']) :=
    strtok1_append (intDecChars_ne_nil _)
      (fun c hc => not_mem_singleton_of_ne (intDecChars_ne_comma c hc))
      (show (',' : Char) ∈ [','] by simp)
  have h5 : strtok1 ['\n'] (intDecChars p.assignedSeatNo ++ ['\n'])
      = some (intDecChars p.assignedSeatNo, []) :=
    strtok1_append (intDecChars_ne_nil _)
      (fun c hc => not_mem_singleton_of_ne (intDecChars_ne_nl c hc))
      (show ('\n' : Char) ∈ ['\n'] by simp)
  simp only [parsePassengerLine, h1, h2, h3, h4, h5, atoi_intDecChars,
    List.take_of_length_le hlen, List.take_of_length_le hplen, string_mk_toList]


/-! ## DateTime token and seat-map hex lemmas -/

theorem sscanfU_sp (cs : List Char) : sscanfU (' ' :: cs) = sscanfU cs := by
  unfold sscanfU
  rw [List.dropWhile_cons_of_pos (by decide)]

theorem sscanfU_natDec_sp (v : Nat) (rest : List Char) :
    sscanfU (natDecChars v ++ ' ' :: rest) = some ((v : Int), ' ' :: rest) := by
  obtain ⟨c, cs, hcons⟩ := List.exists_cons_of_ne_nil (natDecChars_ne_nil v)
  have hcmem : c ∈ natDecChars v := by rw [hcons]; exact List.mem_cons_self c cs
  have hcdig : c.isDigit = true := natDecChars_digits c hcmem
  unfold sscanfU
  have h1 : List.dropWhile isCSpace (natDecChars v ++ ' ' :: rest)
      = natDecChars v ++ ' ' :: rest := by
    rw [hcons, List.cons_append,
      List.dropWhile_cons_of_neg (by rw [isDigit_not_space hcdig]; decide)]
  rw [h1]
  have h2 : (natDecChars v ++ ' ' :: rest).head? = some c := by rw [hcons]; rfl
  rw [if_neg (by rw [h2]; simp only [Option.some.injEq]; exact (isDigit_ne hcdig).2.2.1),
    if_neg (by rw [h2]; simp only [Option.some.injEq]; exact (isDigit_ne hcdig).2.2.2)]
  have htake : takeDigits (natDecChars v ++ ' ' :: rest) = natDecChars v := by
    unfold takeDigits
    rw [takeWhile_append_all natDecChars_digits, List.takeWhile_cons_of_neg (by decide),
      List.append_nil]
  have hdrop : dropDigits (natDecChars v ++ ' ' :: rest) = ' ' :: rest := by
    unfold dropDigits
    rw [dropWhile_append_all natDecChars_digits, List.dropWhile_cons_of_neg (by decide)]
  rw [htake, hdrop, if_neg (natDecChars_ne_nil v), decValue_natDecChars]

theorem sscanfU_natDec_end (v : Nat) :
    sscanfU (natDecChars v) = some ((v : Int), []) := by
  obtain ⟨c, cs, hcons⟩ := List.exists_cons_of_ne_nil (natDecChars_ne_nil v)
  have hcmem : c ∈ natDecChars v := by rw [hcons]; exact List.mem_cons_self c cs
  have hcdig : c.isDigit = true := natDecChars_digits c hcmem
  unfold sscanfU
  have h1 : List.dropWhile isCSpace (natDecChars v) = natDecChars v := by
    rw [hcons, List.dropWhile_cons_of_neg (by rw [isDigit_not_space hcdig]; decide)]
  rw [h1]
  have h2 : (natDecChars v).head? = some c := by rw [hcons]; rfl
  rw [if_neg (by rw [h2]; simp only [Option.some.injEq]; exact (isDigit_ne hcdig).2.2.1),
    if_neg (by rw [h2]; simp only [Option.some.injEq]; exact (isDigit_ne hcdig).2.2.2)]
  have htake : takeDigits (natDecChars v) = natDecChars v := by
    unfold takeDigits
    exact takeWhile_eq_self_of_all natDecChars_digits
  have hdrop : dropDigits (natDecChars v) = [] := by
    unfold dropDigits
    exact dropWhile_eq_nil_of_all natDecChars_digits
  rw [htake, hdrop, if_neg (natDecChars_ne_nil v), decValue_natDecChars]

theorem sscanfU5_dateTimeChars (dt : DateTime) :
    sscanfU5 (dateTimeChars dt)
      = some ((dt.day : Int), (dt.month : Int), (dt.year : Int),
          (dt.hour : Int), (dt.minute : Int)) := by
  unfold dateTimeChars
  simp only [sscanfU5, sscanfU_natDec_sp, sscanfU_sp, sscanfU_natDec_end]

theorem mkDateTime_cast (dt : DateTime) (h : dtRep dt) :
    mkDateTime (dt.day : Int) (dt.month : Int) (dt.year : Int)
      (dt.hour : Int) (dt.minute : Int) = dt := by
  obtain ⟨h1, h2, h3, h4, h5⟩ := h
  cases dt
  simp only [mkDateTime, DateTime.mk.injEq] at *
  refine ⟨?_, ?_, ?_, ?_, ?_⟩ <;>
    rw [Int.emod_eq_of_lt (by omega) (by omega)] <;> simp

theorem hexVal_hexDigitChar {d : Nat} (h : d < 16) :
    hexVal? (hexDigitChar d) = some d := by
  interval_cases d <;> decide

theorem hexDigitChar_clean {d : Nat} (h : d < 16) :
    hexDigitChar d ≠ ',' ∧ hexDigitChar d ≠ '\n' ∧ isCSpace (hexDigitChar d) = false := by
  interval_cases d <;> decide

theorem mem_hexByteChars {b : Nat} (hb : b < 256) {c : Char} (hc : c ∈ hexByteChars b) :
    ∃ d, d < 16 ∧ c = hexDigitChar d := by
  unfold hexByteChars at hc
  rcases List.mem_cons.mp hc with rfl | hc2
  · exact ⟨b / 16, by omega, rfl⟩
  · rcases List.mem_cons.mp hc2 with rfl | hc3
    · exact ⟨b % 16, by omega, rfl⟩
    · simp at hc3

theorem mem_seatMapHexChars {sm : List Nat} (hb : ∀ b ∈ sm, b < 256) {c : Char}
    (hc : c ∈ seatMapHexChars sm) : ∃ d, d < 16 ∧ c = hexDigitChar d := by
  unfold seatMapHexChars at hc
  obtain ⟨l, hl, hcl⟩ := List.mem_flatten.mp hc
  obtain ⟨b, hbm, rfl⟩ := List.mem_map.mp hl
  exact mem_hexByteChars (hb b hbm) hcl

theorem seatMapHexChars_cons (b : Nat) (t : List Nat) :
    seatMapHexChars (b :: t) = hexByteChars b ++ seatMapHexChars t := by
  simp [seatMapHexChars]

theorem seatMapHex_drop (sm : List Nat) (j : Nat) :
    (seatMapHexChars sm).drop (2 * j) = seatMapHexChars (sm.drop j) := by
  induction j generalizing sm with
  | zero => simp
  | succ k ih =>
    cases sm with
    | nil => simp [seatMapHexChars]
    | cons b t =>
      have hshape : seatMapHexChars (b :: t)
          = hexDigitChar (b / 16) :: hexDigitChar (b % 16) :: seatMapHexChars t := by
        simp [seatMapHexChars, hexByteChars]
      rw [hshape, show 2 * (k + 1) = 2 * k + 1 + 1 by ring, List.drop_succ_cons,
        List.drop_succ_cons, ih, List.drop_succ_cons]

theorem sscanfHex2_hexByte {b : Nat} (hb : b < 256) (rest : List Char) :
    sscanfHex2 (hexByteChars b ++ rest) = some b := by
  have hd1 : b / 16 < 16 := by omega
  have hd2 : b % 16 < 16 := by omega
  unfold sscanfHex2 hexByteChars
  rw [show ([hexDigitChar (b / 16), hexDigitChar (b % 16)] : List Char) ++ rest
      = hexDigitChar (b / 16) :: hexDigitChar (b % 16) :: rest from rfl,
    List.dropWhile_cons_of_neg (by rw [(hexDigitChar_clean hd1).2.2]; decide)]
  simp only [List.take_succ_cons, List.take_zero]
  simp only [hexVal_hexDigitChar hd1, hexVal_hexDigitChar hd2]
  rw [Nat.div_add_mod]

theorem parseSeatMap_seatMapHex (sm : List Nat) (hlen : sm.length = SEATMAP_BYTES)
    (hb : ∀ b ∈ sm, b < 256) :
    parseSeatMap (seatMapHexChars sm) = sm := by
  unfold parseSeatMap
  apply List.ext_getElem
  · simp [hlen]
  · intro n h1 h2
    simp only [List.getElem_map, List.getElem_range]
    have hn : n < sm.length := h2
    rw [seatMapHex_drop]
    rw [List.drop_eq_getElem_cons hn, seatMapHexChars_cons,
      sscanfHex2_hexByte (hb _ (by simp)) _]
    exact Nat.mod_eq_of_lt (hb _ (by simp))


theorem mem_dateTimeChars {dt : DateTime} {c : Char} (hc : c ∈ dateTimeChars dt) :
    c.isDigit = true ∨ c = ' ' := by
  unfold dateTimeChars at hc
  simp only [List.mem_append, List.mem_cons] at hc
  rcases hc with h | h | h | h | h | h | h | h | h
  all_goals first
    | (exact Or.inl (natDecChars_digits _ h))
    | (exact Or.inr h)

theorem dateTimeChars_ne_comma {dt : DateTime} : ∀ c ∈ dateTimeChars dt, c ≠ ',' := by
  intro c hc
  rcases mem_dateTimeChars hc with h | rfl
  · exact (isDigit_ne h).1
  · decide

theorem dateTimeChars_ne_nl {dt : DateTime} : ∀ c ∈ dateTimeChars dt, c ≠ '\n' := by
  intro c hc
  rcases mem_dateTimeChars hc with h | rfl
  · exact (isDigit_ne h).2.1
  · decide

theorem dateTimeChars_ne_nil (dt : DateTime) : dateTimeChars dt ≠ [] := by
  unfold dateTimeChars
  simp [natDecChars_ne_nil]

theorem seatMapHexChars_ne_comma {sm : List Nat} (hb : ∀ b ∈ sm, b < 256) :
    ∀ c ∈ seatMapHexChars sm, c ≠ ',' := by
  intro c hc
  obtain ⟨d, hd, rfl⟩ := mem_seatMapHexChars hb hc
  exact (hexDigitChar_clean hd).1

theorem seatMapHexChars_ne_nl {sm : List Nat} (hb : ∀ b ∈ sm, b < 256) :
    ∀ c ∈ seatMapHexChars sm, c ≠ '\n' := by
  intro c hc
  obtain ⟨d, hd, rfl⟩ := mem_seatMapHexChars hb hc
  exact (hexDigitChar_clean hd).2.1

theorem seatMapHexChars_ne_nil {sm : List Nat} (hlen : sm.length = SEATMAP_BYTES) :
    seatMapHexChars sm ≠ [] := by
  cases sm with
  | nil => simp [SEATMAP_BYTES] at hlen
  | cons b t =>
    rw [seatMapHexChars_cons]
    simp [hexByteChars]


theorem parseFlightLine_flightLine (f : Flight) (h : cleanFlight f) :
    parseFlightLine (flightLine f) = .ok f := by
  obtain ⟨hfid, ⟨hbne, hbcs⟩, hblen, ⟨hcne, hccs⟩, hclen, ⟨hdne, hdcs⟩, hdlen,
    hdep, harr, hst, hse, hslen, hsb⟩ := h
  have h1 : strtok1 [','] (flightLine f)
      = some (intDecChars f.flightID, (f.flightName.toList ++ ',' :: (f.origin.toList ++ ',' :: (f.destination.toList ++ ',' :: (dateTimeChars f.departure ++ ',' :: (dateTimeChars f.arrival ++ ',' :: (intDecChars f.status ++ ',' :: (intDecChars f.availableSeats ++ ',' :: (seatMapHexChars f.seatMap ++ ['\n']))))))))) := by
    unfold flightLine
    exact strtok1_append (intDecChars_ne_nil _)
      (fun c hc => not_mem_singleton_of_ne (intDecChars_ne_comma c hc))
      (show (',' : Char) ∈ [','] by simp)
  have h2 : strtok1 [','] (f.flightName.toList ++ ',' :: (f.origin.toList ++ ',' :: (f.destination.toList ++ ',' :: (dateTimeChars f.departure ++ ',' :: (dateTimeChars f.arrival ++ ',' :: (intDecChars f.status ++ ',' :: (intDecChars f.availableSeats ++ ',' :: (seatMapHexChars f.seatMap ++ ['\n']))))))))
      = some (f.flightName.toList, (f.origin.toList ++ ',' :: (f.destination.toList ++ ',' :: (dateTimeChars f.departure ++ ',' :: (dateTimeChars f.arrival ++ ',' :: (intDecChars f.status ++ ',' :: (intDecChars f.availableSeats ++ ',' :: (seatMapHexChars f.seatMap ++ ['\n'])))))))) :=
    strtok1_append hbne
      (fun c hc => not_mem_singleton_of_ne (hbcs c hc).1)
      (show (',' : Char) ∈ [','] by simp)
  have h3 : strtok1 [','] (f.origin.toList ++ ',' :: (f.destination.toList ++ ',' :: (dateTimeChars f.departure ++ ',' :: (dateTimeChars f.arrival ++ ',' :: (intDecChars f.status ++ ',' :: (intDecChars f.availableSeats ++ ',' :: (seatMapHexChars f.seatMap ++ ['\n'])))))))
      = some (f.origin.toList, (f.destination.toList ++ ',' :: (dateTimeChars f.departure ++ ',' :: (dateTimeChars f.arrival ++ ',' :: (intDecChars f.status ++ ',' :: (intDecChars f.availableSeats ++ ',' :: (seatMapHexChars f.seatMap ++ ['\n']))))))) :=
    strtok1_append hcne
      (fun c hc => not_mem_singleton_of_ne (hccs c hc).1)
      (show (',' : Char) ∈ [','] by simp)
  have h4 : strtok1 [','] (f.destination.toList ++ ',' :: (dateTimeChars f.departure ++ ',' :: (dateTimeChars f.arrival ++ ',' :: (intDecChars f.status ++ ',' :: (intDecChars f.availableSeats ++ ',' :: (seatMapHexChars f.seatMap ++ ['\n']))))))
      = some (f.destination.toList, (dateTimeChars f.departure ++ ',' :: (dateTimeChars f.arrival ++ ',' :: (intDecChars f.status ++ ',' :: (intDecChars f.availableSeats ++ ',' :: (seatMapHexChars f.seatMap ++ ['\n'])))))) :=
    strtok1_append hdne
      (fun c hc => not_mem_singleton_of_ne (hdcs c hc).1)
      (show (',' : Char) ∈ [','] by simp)
  have h5 : strtok1 [','] (dateTimeChars f.departure ++ ',' :: (dateTimeChars f.arrival ++ ',' :: (intDecChars f.status ++ ',' :: (intDecChars f.availableSeats ++ ',' :: (seatMapHexChars f.seatMap ++ ['\n'])))))
      = some (dateTimeChars f.departure, (dateTimeChars f.arrival ++ ',' :: (intDecChars f.status ++ ',' :: (intDecChars f.availableSeats ++ ',' :: (seatMapHexChars f.seatMap ++ ['\n']))))) :=
    strtok1_append (dateTimeChars_ne_nil _)
      (fun c hc => not_mem_singleton_of_ne (dateTimeChars_ne_comma c hc))
      (show (',' : Char) ∈ [','] by simp)
  have h6 : strtok1 [','] (dateTimeChars f.arrival ++ ',' :: (intDecChars f.status ++ ',' :: (intDecChars f.availableSeats ++ ',' :: (seatMapHexChars f.seatMap ++ ['\n']))))
      = some (dateTimeChars f.arrival, (intDecChars f.status ++ ',' :: (intDecChars f.availableSeats ++ ',' :: (seatMapHexChars f.seatMap ++ ['\n'])))) :=
    strtok1_append (dateTimeChars_ne_nil _)
      (fun c hc => not_mem_singleton_of_ne (dateTimeChars_ne_comma c hc))
      (show (',' : Char) ∈ [','] by simp)
  have h7 : strtok1 [','] (intDecChars f.status ++ ',' :: (intDecChars f.availableSeats ++ ',' :: (seatMapHexChars f.seatMap ++ ['\n'])))
      = some (intDecChars f.status, (intDecChars f.availableSeats ++ ',' :: (seatMapHexChars f.seatMap ++ ['\n']))) :=
    strtok1_append (intDecChars_ne_nil _)
      (fun c hc => not_mem_singleton_of_ne (intDecChars_ne_comma c hc))
      (show (',' : Char) ∈ [','] by simp)
  have h8 : strtok1 [','] (intDecChars f.availableSeats ++ ',' :: (seatMapHexChars f.seatMap ++ ['\n']))
      = some (intDecChars f.availableSeats, (seatMapHexChars f.seatMap ++ ['\n'])) :=
    strtok1_append (intDecChars_ne_nil _)
      (fun c hc => not_mem_singleton_of_ne (intDecChars_ne_comma c hc))
      (show (',' : Char) ∈ [','] by simp)
  have h9 : strtok1 ['\n'] (seatMapHexChars f.seatMap ++ ['\n'])
      = some (seatMapHexChars f.seatMap, []) :=
    strtok1_append (seatMapHexChars_ne_nil hslen)
      (fun c hc => not_mem_singleton_of_ne (seatMapHexChars_ne_nl hsb c hc))
      (show ('\n' : Char) ∈ ['\n'] by simp)
  simp only [parseFlightLine, h1, h2, h3, h4, h5, h6, h7, h8, h9,
    sscanfU5_dateTimeChars, atoi_intDecChars,
    List.take_of_length_le hblen, List.take_of_length_le hclen,
    List.take_of_length_le hdlen, string_mk_toList,
    mkDateTime_cast f.departure hdep, mkDateTime_cast f.arrival harr,
    parseSeatMap_seatMapHex f.seatMap hslen hsb]


/-! ## Load-loop lemmas -/

theorem ticketLoadLoop_saved (ts : List Ticket) (h : ∀ t ∈ ts, cleanTicket t) :
    ticketLoadLoop ts.length (ts.map ticketLine) = (ts, []) := by
  induction ts with
  | nil => rfl
  | cons t rest ih =>
    simp only [List.length_cons, List.map_cons, ticketLoadLoop,
      parseTicketLine_ticketLine t (h t (by simp)),
      ih (fun x hx => h x (List.mem_cons_of_mem _ hx))]

theorem ticketLoadLoop_stops (ts : List Ticket) (h : ∀ t ∈ ts, cleanTicket t)
    (n : Nat) (hn : ts.length < n) (bad : List Char) (m : Msg)
    (hbad : parseTicketLine bad = .error m) (more : List (List Char)) :
    ticketLoadLoop n (ts.map ticketLine ++ bad :: more) = (ts, [m]) := by
  induction ts generalizing n with
  | nil =>
    cases n with
    | zero => omega
    | succ k => simp [ticketLoadLoop, hbad]
  | cons t rest ih =>
    cases n with
    | zero => omega
    | succ k =>
      simp only [List.map_cons, List.cons_append, ticketLoadLoop,
        parseTicketLine_ticketLine t (h t (by simp)), List.append_eq]
      rw [ih (fun x hx => h x (List.mem_cons_of_mem _ hx)) k
        (by simp only [List.length_cons] at hn; omega)]

theorem ticketLine_shape (t : Ticket) (h : cleanTicket t) :
    ∃ b, ticketLine t = b ++ ['\n'] ∧ '\n' ∉ b := by
  obtain ⟨⟨hne, hcs⟩, hlen, _⟩ := h
  refine ⟨intDecChars t.ticketID ++ ',' :: (t.passengerName.toList
    ++ ',' :: (intDecChars t.flightID ++ ',' :: intDecChars t.seatNo)), ?_, ?_⟩
  · simp [ticketLine, List.append_assoc]
  · intro hmem
    simp only [List.mem_append, List.mem_cons] at hmem
    rcases hmem with hm | hm | hm | hm | hm | hm | hm
    · exact intDecChars_ne_nl _ hm rfl
    · exact absurd hm (by decide)
    · exact (hcs _ hm).2 rfl
    · exact absurd hm (by decide)
    · exact intDecChars_ne_nl _ hm rfl
    · exact absurd hm (by decide)
    · exact intDecChars_ne_nl _ hm rfl

theorem take_one_append_of_ne_nil {A B : List Char} (h : A ≠ []) :
    (A ++ B).take 1 = A.take 1 := by
  obtain ⟨c, cs, rfl⟩ := List.exists_cons_of_ne_nil h
  rfl

theorem ticketLine_head_not_space (t : Ticket) :
    ∀ c ∈ (ticketLine t).take 1, isCSpace c = false := by
  intro c hc
  unfold ticketLine at hc
  rw [take_one_append_of_ne_nil (intDecChars_ne_nil _)] at hc
  exact intDecChars_not_space c (List.mem_of_mem_take hc)


theorem ticketLine_ne_nil (t : Ticket) : ticketLine t ≠ [] := by
  unfold ticketLine
  simp [List.append_eq_nil, intDecChars_ne_nil]

theorem loadTickets_saveTickets (prev st : TicketStore)
    (h : ∀ t ∈ st.tickets, cleanTicket t) :
    loadTickets prev (some (saveTickets st))
      = (1, ⟨st.tickets, (st.tickets.length : Int)⟩,
          [Msg.loadedSummary st.tickets.length]) := by
  have hbody : ∀ c ∈ ((st.tickets.map ticketLine).flatten).take 1, isCSpace c = false := by
    cases hts : st.tickets with
    | nil => simp
    | cons t rest =>
      simp only [List.map_cons, List.flatten_cons]
      rw [take_one_append_of_ne_nil (ticketLine_ne_nil t)]
      exact ticketLine_head_not_space t
  have hlines : fgetsLines ((st.tickets.map ticketLine).flatten) = st.tickets.map ticketLine :=
    fgetsLines_lines _ (fun l hl => by
      obtain ⟨t, ht, rfl⟩ := List.mem_map.mp hl
      exact ticketLine_shape t (h t ht))
  have hloop : ticketLoadLoop st.tickets.length (st.tickets.map ticketLine)
      = (st.tickets, []) := ticketLoadLoop_saved _ h
  have hscan := scanfIntNl_countLine st.tickets.length
    ((st.tickets.map ticketLine).flatten) hbody
  simp only [loadTickets, saveTickets, hscan, natCast_toNat, hlines, hloop,
    List.nil_append]


theorem passengerLoadLoop_saved (ps : List Passenger) (h : ∀ p ∈ ps, cleanPassenger p) :
    passengerLoadLoop ps.length (ps.map passengerLine) = (ps, []) := by
  induction ps with
  | nil => rfl
  | cons p rest ih =>
    simp only [List.length_cons, List.map_cons, passengerLoadLoop,
      parsePassengerLine_passengerLine p (h p (by simp)),
      ih (fun x hx => h x (List.mem_cons_of_mem _ hx))]

theorem passengerLoadLoop_stops (ps : List Passenger) (h : ∀ p ∈ ps, cleanPassenger p)
    (n : Nat) (hn : ps.length < n) (bad : List Char) (m : Msg)
    (hbad : parsePassengerLine bad = .error m) (more : List (List Char)) :
    passengerLoadLoop n (ps.map passengerLine ++ bad :: more) = (ps, [m]) := by
  induction ps generalizing n with
  | nil =>
    cases n with
    | zero => omega
    | succ k => simp [passengerLoadLoop, hbad]
  | cons p rest ih =>
    cases n with
    | zero => omega
    | succ k =>
      simp only [List.map_cons, List.cons_append, passengerLoadLoop,
        parsePassengerLine_passengerLine p (h p (by simp)), List.append_eq]
      rw [ih (fun x hx => h x (List.mem_cons_of_mem _ hx)) k
        (by simp only [List.length_cons] at hn; omega)]

theorem passengerLine_shape (p : Passenger) (h : cleanPassenger p) :
    ∃ b, passengerLine p = b ++ ['\n'] ∧ '\n' ∉ b := by
  obtain ⟨⟨hne, hcs⟩, hlen, hlead, ⟨hpne, hpcs⟩, hplen, _⟩ := h
  refine ⟨p.name.toList ++ ',' :: (intDecChars p.age ++ ',' :: (p.passport.toList
    ++ ',' :: (intDecChars p.assignedFlightID ++ ',' :: intDecChars p.assignedSeatNo))),
    ?_, ?_⟩
  · simp [passengerLine, List.append_assoc]
  · intro hmem
    simp only [List.mem_append, List.mem_cons] at hmem
    rcases hmem with hm | hm | hm | hm | hm | hm | hm | hm | hm
    · exact (hcs _ hm).2 rfl
    · exact absurd hm (by decide)
    · exact intDecChars_ne_nl _ hm rfl
    · exact absurd hm (by decide)
    · exact (hpcs _ hm).2 rfl
    · exact absurd hm (by decide)
    · exact intDecChars_ne_nl _ hm rfl
    · exact absurd hm (by decide)
    · exact intDecChars_ne_nl _ hm rfl

theorem passengerLine_ne_nil (p : Passenger) :
    passengerLine p ≠ [] := by
  unfold passengerLine
  simp [List.append_eq_nil]

theorem passengerLine_head_not_space (p : Passenger) (h : cleanPassenger p) :
    ∀ c ∈ (passengerLine p).take 1, isCSpace c = false := by
  obtain ⟨⟨hne, _hcs⟩, _hlen, hlead, _⟩ := h
  intro c hc
  unfold passengerLine at hc
  rw [take_one_append_of_ne_nil hne] at hc
  exact hlead c hc

theorem loadPassengers_savePassengers (prev st : PassengerStore)
    (h : ∀ p ∈ st.passengers, cleanPassenger p) :
    loadPassengers prev (some (savePassengers st))
      = (1, ⟨st.passengers, (st.passengers.length : Int)⟩,
          [Msg.loadedSummary st.passengers.length]) := by
  have hbody : ∀ c ∈ ((st.passengers.map passengerLine).flatten).take 1,
      isCSpace c = false := by
    cases hts : st.passengers with
    | nil => simp
    | cons p rest =>
      simp only [List.map_cons, List.flatten_cons]
      have hp := h p (by rw [hts]; simp)
      rw [take_one_append_of_ne_nil (passengerLine_ne_nil p)]
      exact passengerLine_head_not_space p hp
  have hlines : fgetsLines ((st.passengers.map passengerLine).flatten)
      = st.passengers.map passengerLine :=
    fgetsLines_lines _ (fun l hl => by
      obtain ⟨p, hp, rfl⟩ := List.mem_map.mp hl
      exact passengerLine_shape p (h p hp))
  have hloop : passengerLoadLoop st.passengers.length (st.passengers.map passengerLine)
      = (st.passengers, []) := passengerLoadLoop_saved _ h
  have hscan := scanfIntNl_countLine st.passengers.length
    ((st.passengers.map passengerLine).flatten) hbody
  simp only [loadPassengers, savePassengers, hscan, natCast_toNat, hlines, hloop,
    List.nil_append]


theorem flightLoadLoop_saved (fs : List Flight) (h : ∀ f ∈ fs, cleanFlight f) :
    flightLoadLoop fs.length (fs.map flightLine) = (fs, []) := by
  induction fs with
  | nil => rfl
  | cons f rest ih =>
    simp only [List.length_cons, List.map_cons, flightLoadLoop,
      parseFlightLine_flightLine f (h f (by simp)),
      ih (fun x hx => h x (List.mem_cons_of_mem _ hx))]

theorem flightLoadLoop_stops (fs : List Flight) (h : ∀ f ∈ fs, cleanFlight f)
    (n : Nat) (hn : fs.length < n) (bad : List Char) (m : Msg)
    (hbad : parseFlightLine bad = .error m) (more : List (List Char)) :
    flightLoadLoop n (fs.map flightLine ++ bad :: more) = (fs, [m]) := by
  induction fs generalizing n with
  | nil =>
    cases n with
    | zero => omega
    | succ k => simp [flightLoadLoop, hbad]
  | cons f rest ih =>
    cases n with
    | zero => omega
    | succ k =>
      simp only [List.map_cons, List.cons_append, flightLoadLoop,
        parseFlightLine_flightLine f (h f (by simp)), List.append_eq]
      rw [ih (fun x hx => h x (List.mem_cons_of_mem _ hx)) k
        (by simp only [List.length_cons] at hn; omega)]

theorem flightLine_shape (f : Flight) (h : cleanFlight f) :
    ∃ b, flightLine f = b ++ ['\n'] ∧ '\n' ∉ b := by
  obtain ⟨hfid, ⟨hbne, hbcs⟩, hblen, ⟨hcne, hccs⟩, hclen, ⟨hdne, hdcs⟩, hdlen,
    hdep, harr, hst, hse, hslen, hsb⟩ := h
  refine ⟨intDecChars f.flightID ++ ',' :: (f.flightName.toList ++ ',' :: (f.origin.toList
    ++ ',' :: (f.destination.toList ++ ',' :: (dateTimeChars f.departure
    ++ ',' :: (dateTimeChars f.arrival ++ ',' :: (intDecChars f.status
    ++ ',' :: (intDecChars f.availableSeats ++ ',' :: seatMapHexChars f.seatMap))))))),
    ?_, ?_⟩
  · simp [flightLine, List.append_assoc]
  · intro hmem
    simp only [List.mem_append, List.mem_cons] at hmem
    rcases hmem with hm | hm | hm | hm | hm | hm | hm | hm | hm | hm | hm | hm | hm
      | hm | hm | hm | hm
    · exact intDecChars_ne_nl _ hm rfl
    · exact absurd hm (by decide)
    · exact (hbcs _ hm).2 rfl
    · exact absurd hm (by decide)
    · exact (hccs _ hm).2 rfl
    · exact absurd hm (by decide)
    · exact (hdcs _ hm).2 rfl
    · exact absurd hm (by decide)
    · exact dateTimeChars_ne_nl _ hm rfl
    · exact absurd hm (by decide)
    · exact dateTimeChars_ne_nl _ hm rfl
    · exact absurd hm (by decide)
    · exact intDecChars_ne_nl _ hm rfl
    · exact absurd hm (by decide)
    · exact intDecChars_ne_nl _ hm rfl
    · exact absurd hm (by decide)
    · exact seatMapHexChars_ne_nl hsb _ hm rfl

theorem flightLine_ne_nil (f : Flight) : flightLine f ≠ [] := by
  unfold flightLine
  simp [List.append_eq_nil, intDecChars_ne_nil]

theorem flightLine_head_not_space (f : Flight) :
    ∀ c ∈ (flightLine f).take 1, isCSpace c = false := by
  intro c hc
  unfold flightLine at hc
  rw [take_one_append_of_ne_nil (intDecChars_ne_nil _)] at hc
  exact intDecChars_not_space c (List.mem_of_mem_take hc)

theorem loadFlights_saveFlights (prev fs : List Flight)
    (h : ∀ f ∈ fs, cleanFlight f) (hlen : fs.length ≤ MAX_FLIGHTS) :
    loadFlights prev (some (saveFlights fs))
      = (1, fs, [Msg.loadedSummary fs.length]) := by
  have hbody : ∀ c ∈ ((fs.map flightLine).flatten).take 1, isCSpace c = false := by
    cases hts : fs with
    | nil => simp
    | cons f rest =>
      simp only [List.map_cons, List.flatten_cons]
      rw [take_one_append_of_ne_nil (flightLine_ne_nil f)]
      exact flightLine_head_not_space f
  have hlines : fgetsLines ((fs.map flightLine).flatten) = fs.map flightLine :=
    fgetsLines_lines _ (fun l hl => by
      obtain ⟨f, hf, rfl⟩ := List.mem_map.mp hl
      exact flightLine_shape f (h f hf))
  have hloop : flightLoadLoop fs.length (fs.map flightLine) = (fs, []) :=
    flightLoadLoop_saved _ h
  have hscan := scanfIntNl_countLine fs.length ((fs.map flightLine).flatten) hbody
  have h100 : ¬(((fs.length : Nat) : Int) > ((MAX_FLIGHTS : Nat) : Int)) := by
    simp only [MAX_FLIGHTS] at *
    omega
  simp only [loadFlights, saveFlights, hscan, if_neg h100, natCast_toNat, hlines, hloop,
    List.nil_append]


/-! ## Best-effort load: stop at the first malformed line -/

theorem fgetsLines_lines_append (ls : List (List Char)) (rest : List Char)
    (h : ∀ l ∈ ls, ∃ b, l = b ++ ['\n'] ∧ '\n' ∉ b) :
    fgetsLines (ls.flatten ++ rest) = ls ++ fgetsLines rest := by
  induction ls with
  | nil => rfl
  | cons l t ih =>
    obtain ⟨b, rfl, hb⟩ := h l (by simp)
    rw [List.flatten_cons, List.append_assoc, List.append_assoc,
      show ['\n'] ++ (t.flatten ++ rest) = '\n' :: (t.flatten ++ rest) from rfl,
      fgetsLines_append_line hb, ih (fun x hx => h x (List.mem_cons_of_mem _ hx)),
      List.cons_append]

theorem loadTickets_stops (prev : TicketStore) (ts : List Ticket)
    (h : ∀ t ∈ ts, cleanTicket t) (N : Nat) (hn : ts.length < N)
    (bad : List Char) (hbne : bad ≠ []) (hbnl : '\n' ∉ bad)
    (hblead : ∀ c ∈ bad.take 1, isCSpace c = false)
    (m : Msg) (hbad : parseTicketLine (bad ++ ['\n']) = .error m) (more : List Char) :
    loadTickets prev (some (intDecChars (N : Int)
        ++ '\n' :: ((ts.map ticketLine).flatten ++ (bad ++ '\n' :: more))))
      = (1, ⟨ts, (N : Int)⟩, [m, Msg.loadedSummary ts.length]) := by
  have hbody : ∀ c ∈ ((ts.map ticketLine).flatten ++ (bad ++ '\n' :: more)).take 1,
      isCSpace c = false := by
    cases ts with
    | nil =>
      simp only [List.map_nil, List.flatten_nil, List.nil_append]
      rw [take_one_append_of_ne_nil hbne]
      exact hblead
    | cons t rest =>
      simp only [List.map_cons, List.flatten_cons, List.append_assoc]
      rw [take_one_append_of_ne_nil (ticketLine_ne_nil t)]
      exact ticketLine_head_not_space t
  have hlines : fgetsLines ((ts.map ticketLine).flatten ++ (bad ++ '\n' :: more))
      = ts.map ticketLine ++ (bad ++ ['\n']) :: fgetsLines more := by
    rw [fgetsLines_lines_append _ _ (fun l hl => by
        obtain ⟨t, ht, rfl⟩ := List.mem_map.mp hl
        exact ticketLine_shape t (h t ht)),
      fgetsLines_append_line hbnl]
  have hloop := ticketLoadLoop_stops ts h N hn (bad ++ ['\n']) m hbad (fgetsLines more)
  have hscan := scanfIntNl_countLine N
    ((ts.map ticketLine).flatten ++ (bad ++ '\n' :: more)) hbody
  simp only [loadTickets, hscan, natCast_toNat, hlines, hloop, List.cons_append,
    List.nil_append]

theorem loadPassengers_stops (prev : PassengerStore) (ps : List Passenger)
    (h : ∀ p ∈ ps, cleanPassenger p) (N : Nat) (hn : ps.length < N)
    (bad : List Char) (hbne : bad ≠ []) (hbnl : '\n' ∉ bad)
    (hblead : ∀ c ∈ bad.take 1, isCSpace c = false)
    (m : Msg) (hbad : parsePassengerLine (bad ++ ['\n']) = .error m) (more : List Char) :
    loadPassengers prev (some (intDecChars (N : Int)
        ++ '\n' :: ((ps.map passengerLine).flatten ++ (bad ++ '\n' :: more))))
      = (1, ⟨ps, (N : Int)⟩, [m, Msg.loadedSummary ps.length]) := by
  have hbody : ∀ c ∈ ((ps.map passengerLine).flatten ++ (bad ++ '\n' :: more)).take 1,
      isCSpace c = false := by
    cases hts : ps with
    | nil =>
      simp only [List.map_nil, List.flatten_nil, List.nil_append]
      rw [take_one_append_of_ne_nil hbne]
      exact hblead
    | cons p rest =>
      have hp := h p (by rw [hts]; simp)
      simp only [List.map_cons, List.flatten_cons, List.append_assoc]
      rw [take_one_append_of_ne_nil (passengerLine_ne_nil p)]
      exact passengerLine_head_not_space p hp
  have hlines : fgetsLines ((ps.map passengerLine).flatten ++ (bad ++ '\n' :: more))
      = ps.map passengerLine ++ (bad ++ ['\n']) :: fgetsLines more := by
    rw [fgetsLines_lines_append _ _ (fun l hl => by
        obtain ⟨p, hp, rfl⟩ := List.mem_map.mp hl
        exact passengerLine_shape p (h p hp)),
      fgetsLines_append_line hbnl]
  have hloop := passengerLoadLoop_stops ps h N hn (bad ++ ['\n']) m hbad (fgetsLines more)
  have hscan := scanfIntNl_countLine N
    ((ps.map passengerLine).flatten ++ (bad ++ '\n' :: more)) hbody
  simp only [loadPassengers, hscan, natCast_toNat, hlines, hloop, List.cons_append,
    List.nil_append]

theorem loadFlights_stops (prev fs : List Flight)
    (h : ∀ f ∈ fs, cleanFlight f) (N : Nat) (hn : fs.length < N)
    (hN : N ≤ MAX_FLIGHTS)
    (bad : List Char) (hbne : bad ≠ []) (hbnl : '\n' ∉ bad)
    (hblead : ∀ c ∈ bad.take 1, isCSpace c = false)
    (m : Msg) (hbad : parseFlightLine (bad ++ ['\n']) = .error m) (more : List Char) :
    loadFlights prev (some (intDecChars (N : Int)
        ++ '\n' :: ((fs.map flightLine).flatten ++ (bad ++ '\n' :: more))))
      = (1, fs, [m, Msg.loadedSummary fs.length]) := by
  have hbody : ∀ c ∈ ((fs.map flightLine).flatten ++ (bad ++ '\n' :: more)).take 1,
      isCSpace c = false := by
    cases fs with
    | nil =>
      simp only [List.map_nil, List.flatten_nil, List.nil_append]
      rw [take_one_append_of_ne_nil hbne]
      exact hblead
    | cons f rest =>
      simp only [List.map_cons, List.flatten_cons, List.append_assoc]
      rw [take_one_append_of_ne_nil (flightLine_ne_nil f)]
      exact flightLine_head_not_space f
  have hlines : fgetsLines ((fs.map flightLine).flatten ++ (bad ++ '\n' :: more))
      = fs.map flightLine ++ (bad ++ ['\n']) :: fgetsLines more := by
    rw [fgetsLines_lines_append _ _ (fun l hl => by
        obtain ⟨f, hf, rfl⟩ := List.mem_map.mp hl
        exact flightLine_shape f (h f hf)),
      fgetsLines_append_line hbnl]
  have hloop := flightLoadLoop_stops fs h N hn (bad ++ ['\n']) m hbad (fgetsLines more)
  have hscan := scanfIntNl_countLine N
    ((fs.map flightLine).flatten ++ (bad ++ '\n' :: more)) hbody
  have h100 : ¬(((N : Nat) : Int) > ((MAX_FLIGHTS : Nat) : Int)) := by
    simp only [MAX_FLIGHTS] at *
    omega
  simp only [loadFlights, hscan, if_neg h100, natCast_toNat, hlines, hloop,
    List.cons_append, List.nil_append]


/-! ## Linear-scan removal lemmas -/

theorem linearSearchIdx_none_iff {α : Type} (p : α → Bool) (l : List α) :
    linearSearchIdx p l = none ↔ ∀ a ∈ l, p a = false := by
  induction l with
  | nil => simp [linearSearchIdx]
  | cons a t ih =>
    unfold linearSearchIdx
    rcases hpa : p a with _ | _
    · simp [hpa, ih]
    · simp [hpa]

theorem linearSearchIdx_some_lt {α : Type} {p : α → Bool} {l : List α} {i : Nat}
    (h : linearSearchIdx p l = some i) : i < l.length := by
  induction l generalizing i with
  | nil => simp [linearSearchIdx] at h
  | cons a t ih =>
    unfold linearSearchIdx at h
    rcases hpa : p a with _ | _
    · rw [hpa] at h
      simp only [Bool.false_eq_true, if_false, Option.map_eq_some'] at h
      obtain ⟨j, hj, rfl⟩ := h
      simpa using Nat.succ_lt_succ (ih hj)
    · rw [hpa] at h
      simp only [if_true, Option.some.injEq] at h
      subst h
      simp

theorem find?_eraseIdx_of_count_le_one {α : Type} (p : α → Bool) (l : List α) (i : Nat)
    (h : linearSearchIdx p l = some i) (hc : (l.filter p).length ≤ 1) :
    (l.eraseIdx i).find? p = none := by
  induction l generalizing i with
  | nil => simp [linearSearchIdx] at h
  | cons a t ih =>
    unfold linearSearchIdx at h
    rcases hpa : p a with _ | _
    · rw [hpa] at h
      simp only [Bool.false_eq_true, if_false, Option.map_eq_some'] at h
      obtain ⟨j, hj, rfl⟩ := h
      rw [List.eraseIdx_cons_succ, List.find?_cons_of_neg _ (by simp [hpa])]
      exact ih j hj (by rwa [List.filter_cons_of_neg (by simp [hpa])] at hc)
    · rw [hpa] at h
      simp only [if_true, Option.some.injEq] at h
      subst h
      rw [List.eraseIdx_cons_zero, List.find?_eq_none]
      intro x hx hpx
      rw [List.filter_cons_of_pos hpa] at hc
      simp only [List.length_cons] at hc
      have hnil : t.filter p = [] := List.length_eq_zero.mp (by omega)
      have hmem : x ∈ t.filter p := List.mem_filter.mpr ⟨hx, hpx⟩
      rw [hnil] at hmem
      simp at hmem

/-! ## Lexicographic DateTime order -/

/-- The spec's description of the comparison: strict lexicographic order
over (year, month, day, hour, minute). -/
def dtLexLt (a b : DateTime) : Prop :=
  a.year < b.year ∨ (a.year = b.year ∧ (a.month < b.month ∨ (a.month = b.month ∧
    (a.day < b.day ∨ (a.day = b.day ∧ (a.hour < b.hour ∨ (a.hour = b.hour ∧
      a.minute < b.minute)))))))

/-- Non-strict lexicographic order over (year, month, day, hour, minute). -/
def dtLexLe (a b : DateTime) : Prop :=
  a.year < b.year ∨ (a.year = b.year ∧ (a.month < b.month ∨ (a.month = b.month ∧
    (a.day < b.day ∨ (a.day = b.day ∧ (a.hour < b.hour ∨ (a.hour = b.hour ∧
      a.minute ≤ b.minute)))))))

instance (a b : DateTime) : Decidable (dtLexLt a b) := by unfold dtLexLt; infer_instance
instance (a b : DateTime) : Decidable (dtLexLe a b) := by unfold dtLexLe; infer_instance

theorem compareDateTime_neg_iff (a b : DateTime) :
    compareDateTime a b < 0 ↔ dtLexLt a b := by
  unfold compareDateTime dtLexLt
  split_ifs <;> omega

theorem compareDateTime_pos_iff (a b : DateTime) :
    compareDateTime a b > 0 ↔ dtLexLt b a := by
  unfold compareDateTime dtLexLt
  split_ifs <;> omega

theorem compareDateTime_nonpos_iff (a b : DateTime) :
    compareDateTime a b ≤ 0 ↔ dtLexLe a b := by
  unfold compareDateTime dtLexLe
  split_ifs <;> omega

theorem dtLexLe_trans {a b c : DateTime} (h1 : dtLexLe a b) (h2 : dtLexLe b c) :
    dtLexLe a c := by
  unfold dtLexLe at *
  omega

theorem dtLexLe_total (a b : DateTime) : dtLexLe a b ∨ dtLexLe b a := by
  unfold dtLexLe
  omega


/-! ## Sample records used by witnesses -/

def sampleTicket : Ticket := ⟨1, "Alice", 7, 12⟩

def samplePassenger : Passenger := ⟨"Carol", 30, "P123", 0, 0⟩

def sampleFlight : Flight :=
  ⟨101, "Airbus", "DAC", "LHR", ⟨1, 6, 2025, 10, 0⟩, ⟨1, 6, 2025, 12, 30⟩, 0, 150,
    List.replicate 32 0⟩

/-! ## Claim C1 -/

/-- C1 (amended): for every ticket store whose free-text fields are
nonempty, contain no comma and no newline, and fit the C field widths
(name ≤ 99 characters, `int` fields in `int32` range), `saveTickets`
followed by `loadTickets` reproduces the same tickets in the same
order; likewise for the passenger store (names additionally must not
begin with whitespace, passports ≤ 19 characters) and the flight store
(at most `MAX_FLIGHTS` flights, date fields within their bit-field
ranges, 32 seat-map bytes each below 256), including the seat map
encoded as a 64-character uppercase hex string. -/
theorem claim_C1_roundtrip_amended :
    (∀ prev st, (∀ t ∈ st.tickets, cleanTicket t) →
      loadTickets prev (some (saveTickets st))
        = (1, ⟨st.tickets, (st.tickets.length : Int)⟩,
            [Msg.loadedSummary st.tickets.length]))
    ∧ (∀ prev st, (∀ p ∈ st.passengers, cleanPassenger p) →
      loadPassengers prev (some (savePassengers st))
        = (1, ⟨st.passengers, (st.passengers.length : Int)⟩,
            [Msg.loadedSummary st.passengers.length]))
    ∧ (∀ prev fs, (∀ f ∈ fs, cleanFlight f) → fs.length ≤ MAX_FLIGHTS →
      loadFlights prev (some (saveFlights fs))
        = (1, fs, [Msg.loadedSummary fs.length])) :=
  ⟨loadTickets_saveTickets, loadPassengers_savePassengers, loadFlights_saveFlights⟩

/-- C1 counterexample: the claim as stated only excludes commas and
newlines from free-text fields, but an empty passenger name — which
contains neither — breaks the round trip: `saveTickets` writes the line
`1,,2,3`, `strtok` skips the empty field, the seat-number token is
missing, and the record is dropped, so the loaded store is empty
instead of equal to the original. -/
theorem claim_C1_counterexample :
    (loadTickets initialTicketStore
        (some (saveTickets ⟨[⟨1, "", 2, 3⟩], 10⟩))).2.1.tickets = []
    ∧ (loadTickets initialTicketStore
        (some (saveTickets ⟨[⟨1, "", 2, 3⟩], 10⟩))).2.1.tickets ≠ [⟨1, "", 2, 3⟩] := by
  constructor
  · decide
  · decide

/-- C1 witness: the amended round trip at concrete one-element stores. -/
theorem claim_C1_witness :
    loadTickets initialTicketStore (some (saveTickets ⟨[sampleTicket], 10⟩))
      = (1, ⟨[sampleTicket], ((1 : Nat) : Int)⟩, [Msg.loadedSummary 1])
    ∧ loadPassengers initialPassengerStore (some (savePassengers ⟨[samplePassenger], 10⟩))
      = (1, ⟨[samplePassenger], ((1 : Nat) : Int)⟩, [Msg.loadedSummary 1])
    ∧ loadFlights [] (some (saveFlights [sampleFlight]))
      = (1, [sampleFlight], [Msg.loadedSummary 1]) :=
  ⟨claim_C1_roundtrip_amended.1 initialTicketStore ⟨[sampleTicket], 10⟩ (by decide),
   claim_C1_roundtrip_amended.2.1 initialPassengerStore ⟨[samplePassenger], 10⟩ (by decide),
   claim_C1_roundtrip_amended.2.2 [] [sampleFlight] (by decide) (by decide)⟩


/-! ## Claim C2 -/

/-- C2: for every input file whose count line declares `N` but which
contains only `M < N` well-formed record lines followed by a malformed
line, each loader stops at the malformed line, retains exactly the `M`
records parsed before it, sets the store's count to `M`, and reports
the discrepancy (the per-field error message, and a loaded-count
summary of `M` rather than `N`).  The malformed line is any nonempty
newline-free line (not beginning with whitespace) whose parse fails;
for flights the declared count must not exceed `MAX_FLIGHTS` (beyond
it the count is truncated first in the source). -/
theorem claim_C2_stops_at_malformed :
    (∀ prev ts, (∀ t ∈ ts, cleanTicket t) → ∀ N : Nat, ts.length < N →
      ∀ bad, bad ≠ [] → '\n' ∉ bad → (∀ c ∈ bad.take 1, isCSpace c = false) →
      ∀ m, parseTicketLine (bad ++ ['\n']) = .error m → ∀ more,
      loadTickets prev (some (intDecChars (N : Int)
          ++ '\n' :: ((ts.map ticketLine).flatten ++ (bad ++ '\n' :: more))))
        = (1, ⟨ts, (N : Int)⟩, [m, Msg.loadedSummary ts.length]))
    ∧ (∀ prev ps, (∀ p ∈ ps, cleanPassenger p) → ∀ N : Nat, ps.length < N →
      ∀ bad, bad ≠ [] → '\n' ∉ bad → (∀ c ∈ bad.take 1, isCSpace c = false) →
      ∀ m, parsePassengerLine (bad ++ ['\n']) = .error m → ∀ more,
      loadPassengers prev (some (intDecChars (N : Int)
          ++ '\n' :: ((ps.map passengerLine).flatten ++ (bad ++ '\n' :: more))))
        = (1, ⟨ps, (N : Int)⟩, [m, Msg.loadedSummary ps.length]))
    ∧ (∀ prev fs, (∀ f ∈ fs, cleanFlight f) → ∀ N : Nat, fs.length < N →
      N ≤ MAX_FLIGHTS →
      ∀ bad, bad ≠ [] → '\n' ∉ bad → (∀ c ∈ bad.take 1, isCSpace c = false) →
      ∀ m, parseFlightLine (bad ++ ['\n']) = .error m → ∀ more,
      loadFlights prev (some (intDecChars (N : Int)
          ++ '\n' :: ((fs.map flightLine).flatten ++ (bad ++ '\n' :: more))))
        = (1, fs, [m, Msg.loadedSummary fs.length])) :=
  ⟨fun prev ts h N hn bad hbne hbnl hblead m hbad more =>
      loadTickets_stops prev ts h N hn bad hbne hbnl hblead m hbad more,
   fun prev ps h N hn bad hbne hbnl hblead m hbad more =>
      loadPassengers_stops prev ps h N hn bad hbne hbnl hblead m hbad more,
   fun prev fs h N hn hN bad hbne hbnl hblead m hbad more =>
      loadFlights_stops prev fs h N hn hN bad hbne hbnl hblead m hbad more⟩

/-- C2 witness: a file declaring 2 records with one good line and the
malformed line `7`, for each of the three loaders. -/
theorem claim_C2_witness :
    loadTickets initialTicketStore (some (intDecChars ((2 : Nat) : Int)
        ++ '\n' :: (([sampleTicket].map ticketLine).flatten ++ (['7'] ++ '\n' :: []))))
      = (1, ⟨[sampleTicket], ((2 : Nat) : Int)⟩,
          [Msg.errField "passengerName", Msg.loadedSummary 1])
    ∧ loadPassengers initialPassengerStore (some (intDecChars ((2 : Nat) : Int)
        ++ '\n' :: (([samplePassenger].map passengerLine).flatten ++ (['7'] ++ '\n' :: []))))
      = (1, ⟨[samplePassenger], ((2 : Nat) : Int)⟩,
          [Msg.errField "passenger age", Msg.loadedSummary 1])
    ∧ loadFlights [] (some (intDecChars ((2 : Nat) : Int)
        ++ '\n' :: (([sampleFlight].map flightLine).flatten ++ (['7'] ++ '\n' :: []))))
      = (1, [sampleFlight], [Msg.errField "flightName", Msg.loadedSummary 1]) :=
  ⟨claim_C2_stops_at_malformed.1 initialTicketStore [sampleTicket] (by decide) 2
      (by decide) ['7'] (by decide) (by decide) (by decide)
      (Msg.errField "passengerName") (by rfl) [],
   claim_C2_stops_at_malformed.2.1 initialPassengerStore [samplePassenger] (by decide) 2
      (by decide) ['7'] (by decide) (by decide) (by decide)
      (Msg.errField "passenger age") (by rfl) [],
   claim_C2_stops_at_malformed.2.2 [] [sampleFlight] (by decide) 2
      (by decide) (by decide) ['7'] (by decide) (by decide) (by decide)
      (Msg.errField "flightName") (by rfl) []⟩

/-! ## Claim C3 -/

/-- C3 (amended): a missing file is not treated as fatal — the store is
left empty (count 0) and a distinct "no data file" message is printed —
while an existing file whose count line fails to parse leaves the store
as it was with a "count" error message; but the two cases return the
SAME failure code 0 to the caller, so they are distinguished only by
the printed diagnostic, not by the returned signal. -/
theorem claim_C3_missing_file_amended :
    (∀ st, loadTickets st none = (0, ⟨[], st.capacity⟩, [Msg.noDataFile]))
    ∧ (∀ st c, scanfIntNl c = none →
        loadTickets st (some c) = (0, st, [Msg.errorReadingCount]))
    ∧ (∀ st, loadPassengers st none = (0, ⟨[], st.capacity⟩, [Msg.noDataFile]))
    ∧ (∀ st c, scanfIntNl c = none →
        loadPassengers st (some c) = (0, st, [Msg.errorReadingCount]))
    ∧ (∀ fs, loadFlights fs none = (0, [], [Msg.noDataFile]))
    ∧ (∀ fs c, scanfIntNl c = none →
        loadFlights fs (some c) = (0, fs, [Msg.errorReadingCount])) :=
  ⟨fun _ => rfl,
   fun st c h => by simp [loadTickets, h],
   fun _ => rfl,
   fun st c h => by simp [loadPassengers, h],
   fun _ => rfl,
   fun fs c h => by simp [loadFlights, h]⟩

/-- C3 counterexample: the claim requires the caller to receive a "no
file" signal DISTINCT from the corrupt-count error signal, but both
paths return the same code 0 (here for `loadTickets` on a missing file
versus the unparsable file `x`); the distinction exists only in the
printed message. -/
theorem claim_C3_counterexample :
    (loadTickets initialTicketStore none).1
      = (loadTickets initialTicketStore (some ['x'])).1
    ∧ (loadTickets initialTicketStore none).1 = 0 := by
  constructor
  · decide
  · decide

/-- C3 witness: the corrupt-count cases at the concrete file `x`. -/
theorem claim_C3_witness :
    loadTickets initialTicketStore (some ['x'])
      = (0, initialTicketStore, [Msg.errorReadingCount])
    ∧ loadPassengers initialPassengerStore (some ['x'])
      = (0, initialPassengerStore, [Msg.errorReadingCount])
    ∧ loadFlights [] (some ['x']) = (0, [], [Msg.errorReadingCount]) :=
  ⟨claim_C3_missing_file_amended.2.1 initialTicketStore ['x'] (by decide),
   claim_C3_missing_file_amended.2.2.2.1 initialPassengerStore ['x'] (by decide),
   claim_C3_missing_file_amended.2.2.2.2.2 [] ['x'] (by decide)⟩


/-! ## Claim C4 -/

/-- C4 (amended): for each store, removing an absent key reports
not-found (code 0) and leaves the store unchanged; removing a present
key removes exactly the first matching element — the survivors are
`take i ++ drop (i+1)`, a sublist of the original (relative order
preserved) with length decreased by exactly 1.  A subsequent find on
the key reports not-found PROVIDED the key occurred at most once;
duplicate keys are representable (the loaders perform no uniqueness
check) and then the find still succeeds.  For tickets the scanned key
must additionally be positive, since `cancelTicket` rejects
non-positive IDs before searching. -/
theorem claim_C4_remove_amended :
    (∀ (st : TicketStore) (tid : Int), 0 < tid →
      ((linearSearchIdx (fun t => t.ticketID = tid) st.tickets = none →
          cancelTicket st (some tid) = (0, st))
       ∧ (∀ i, linearSearchIdx (fun t => t.ticketID = tid) st.tickets = some i →
          cancelTicket st (some tid)
            = (1, ⟨st.tickets.take i ++ st.tickets.drop (i + 1), st.capacity⟩)
          ∧ (st.tickets.eraseIdx i).length = st.tickets.length - 1
          ∧ (st.tickets.eraseIdx i).Sublist st.tickets
          ∧ ((st.tickets.filter (fun t => t.ticketID = tid)).length ≤ 1 →
              findTicket (st.tickets.eraseIdx i) tid = none))))
    ∧ (∀ (st : PassengerStore) (pp : String),
      ((linearSearchIdx (fun p => p.passport = pp) st.passengers = none →
          removePassenger st pp = (0, st))
       ∧ (∀ i, linearSearchIdx (fun p => p.passport = pp) st.passengers = some i →
          removePassenger st pp
            = (1, ⟨st.passengers.take i ++ st.passengers.drop (i + 1), st.capacity⟩)
          ∧ (st.passengers.eraseIdx i).length = st.passengers.length - 1
          ∧ (st.passengers.eraseIdx i).Sublist st.passengers
          ∧ ((st.passengers.filter (fun p => p.passport = pp)).length ≤ 1 →
              findPassenger (st.passengers.eraseIdx i) pp = none))))
    ∧ (∀ (fs : List Flight) (fid : Int),
      ((linearSearchIdx (fun f => f.flightID = fid) fs = none →
          deleteFlight fs fid = (0, fs))
       ∧ (∀ i, linearSearchIdx (fun f => f.flightID = fid) fs = some i →
          deleteFlight fs fid = (1, fs.take i ++ fs.drop (i + 1))
          ∧ (fs.eraseIdx i).length = fs.length - 1
          ∧ (fs.eraseIdx i).Sublist fs
          ∧ ((fs.filter (fun f => f.flightID = fid)).length ≤ 1 →
              searchFlight (fs.eraseIdx i) fid = none)))) := by
  refine ⟨?_, ?_, ?_⟩
  · intro st tid htid
    constructor
    · intro hnone
      by_cases h0 : st.tickets.length = 0
      · simp [cancelTicket, h0]
      · simp [cancelTicket, h0, show ¬tid ≤ 0 by omega, hnone]
    · intro i hfound
      have hi : i < st.tickets.length := linearSearchIdx_some_lt hfound
      have h0 : ¬st.tickets.length = 0 := by omega
      refine ⟨?_, ?_, List.eraseIdx_sublist _ _, ?_⟩
      · simp [cancelTicket, h0, show ¬tid ≤ 0 by omega, hfound,
          List.eraseIdx_eq_take_drop_succ]
      · rw [List.length_eraseIdx]
        simp [hi]
      · intro hcount
        unfold findTicket
        exact find?_eraseIdx_of_count_le_one _ _ _ hfound hcount
  · intro st pp
    constructor
    · intro hnone
      by_cases h0 : st.passengers.length = 0
      · simp [removePassenger, h0]
      · simp [removePassenger, h0, hnone]
    · intro i hfound
      have hi : i < st.passengers.length := linearSearchIdx_some_lt hfound
      have h0 : ¬st.passengers.length = 0 := by omega
      refine ⟨?_, ?_, List.eraseIdx_sublist _ _, ?_⟩
      · simp [removePassenger, h0, hfound, List.eraseIdx_eq_take_drop_succ]
      · rw [List.length_eraseIdx]
        simp [hi]
      · intro hcount
        unfold findPassenger
        exact find?_eraseIdx_of_count_le_one _ _ _ hfound hcount
  · intro fs fid
    constructor
    · intro hnone
      by_cases h0 : fs.length = 0
      · simp [deleteFlight, h0]
      · simp [deleteFlight, h0, hnone]
    · intro i hfound
      have hi : i < fs.length := linearSearchIdx_some_lt hfound
      have h0 : ¬fs.length = 0 := by omega
      refine ⟨?_, ?_, List.eraseIdx_sublist _ _, ?_⟩
      · simp [deleteFlight, h0, hfound, List.eraseIdx_eq_take_drop_succ]
      · rw [List.length_eraseIdx]
        simp [hi]
      · intro hcount
        unfold searchFlight
        exact find?_eraseIdx_of_count_le_one _ _ _ hfound hcount

def dupFlightA : Flight :=
  ⟨1, "A", "O", "D", ⟨1, 1, 2025, 8, 0⟩, ⟨1, 1, 2025, 9, 0⟩, 0, 5, List.replicate 32 0⟩

def dupFlightB : Flight :=
  ⟨1, "B", "O", "D", ⟨1, 1, 2025, 8, 0⟩, ⟨1, 1, 2025, 9, 0⟩, 0, 5, List.replicate 32 0⟩

/-- C4 counterexample: with two flights sharing `flightID = 1` — a
store reachable by loading a file, since `loadFlights` performs no
duplicate check (last conjunct) — `deleteFlight 1` succeeds (removing
the first match), yet a subsequent `searchFlight 1` still finds a
flight, contradicting the claim's "a subsequent find on k reports
not-found". -/
theorem claim_C4_counterexample :
    (deleteFlight [dupFlightA, dupFlightB] 1).1 = 1
    ∧ (deleteFlight [dupFlightA, dupFlightB] 1).2 = [dupFlightB]
    ∧ searchFlight (deleteFlight [dupFlightA, dupFlightB] 1).2 1 = some dupFlightB
    ∧ (loadFlights [] (some (saveFlights [dupFlightA, dupFlightB]))).2.1
        = [dupFlightA, dupFlightB] := by
  refine ⟨by decide, by decide, by decide, ?_⟩
  rw [loadFlights_saveFlights [] [dupFlightA, dupFlightB] (by decide) (by decide)]

/-- C4 witness: the amended removal behaviour at concrete stores. -/
theorem claim_C4_witness :
    cancelTicket ⟨[sampleTicket], 10⟩ (some 99) = (0, ⟨[sampleTicket], 10⟩)
    ∧ cancelTicket ⟨[sampleTicket], 10⟩ (some 1)
        = (1, ⟨[sampleTicket].take 0 ++ [sampleTicket].drop 1, 10⟩)
    ∧ findTicket ([sampleTicket].eraseIdx 0) 1 = none
    ∧ removePassenger ⟨[samplePassenger], 10⟩ "NOPE" = (0, ⟨[samplePassenger], 10⟩)
    ∧ deleteFlight [sampleFlight] 101 = (1, [sampleFlight].take 0 ++ [sampleFlight].drop 1)
    ∧ searchFlight ([sampleFlight].eraseIdx 0) 101 = none :=
  ⟨(claim_C4_remove_amended.1 ⟨[sampleTicket], 10⟩ 99 (by decide)).1 (by decide),
   ((claim_C4_remove_amended.1 ⟨[sampleTicket], 10⟩ 1 (by decide)).2 0 (by decide)).1,
   ((claim_C4_remove_amended.1 ⟨[sampleTicket], 10⟩ 1 (by decide)).2 0 (by decide)).2.2.2
     (by decide),
   (claim_C4_remove_amended.2.1 ⟨[samplePassenger], 10⟩ "NOPE").1 (by decide),
   ((claim_C4_remove_amended.2.2 [sampleFlight] 101).2 0 (by decide)).1,
   ((claim_C4_remove_amended.2.2 [sampleFlight] 101).2 0 (by decide)).2.2.2 (by decide)⟩


/-! ## Claim C5 -/

/-- C5 (amended): `addFlight` rejects a flight ID whose `scanf` read
fails, and rejects an ID equal to an existing flight's ID, leaving the
store unchanged; but it performs NO positivity check on the ID itself
(only `scanf(...) != 1` is tested), so non-positive integer IDs are
accepted.  `addPassenger` rejects a passport already present, leaving
the passenger list unchanged. -/
theorem claim_C5_add_checks_amended :
    (∀ fl inp, fl.length < MAX_FLIGHTS → inp.flightIDRead = none →
        addFlight fl inp = (0, fl, some .invalidID))
    ∧ (∀ fl inp fid, fl.length < MAX_FLIGHTS → inp.flightIDRead = some fid →
        (∃ f ∈ fl, f.flightID = fid) → addFlight fl inp = (0, fl, some .duplicateID))
    ∧ (∀ st inp age, inp.ageRead = some age → 0 < age →
        (∃ p ∈ st.passengers, p.passport = inp.passport) →
        (addPassenger st inp).1 = 0
        ∧ (addPassenger st inp).2.passengers = st.passengers) := by
  refine ⟨?_, ?_, ?_⟩
  · intro fl inp hlt hnone
    simp [addFlight, show ¬fl.length ≥ MAX_FLIGHTS by omega, hnone]
  · intro fl inp fid hlt hread hdup
    have hany : fl.any (fun f => f.flightID = fid) = true := by
      obtain ⟨f, hf, hfid⟩ := hdup
      exact List.any_eq_true.mpr ⟨f, hf, by simp [hfid]⟩
    simp [addFlight, show ¬fl.length ≥ MAX_FLIGHTS by omega, hread, hany]
  · intro st inp age hage hpos hdup
    have hany : st.passengers.any (fun p => p.passport = inp.passport) = true := by
      obtain ⟨p, hp, hpp⟩ := hdup
      exact List.any_eq_true.mpr ⟨p, hp, by simp [hpp]⟩
    constructor <;>
      simp [addPassenger, hage, show ¬age ≤ 0 by omega, hany]

def cxAddFlightInput : AddFlightInput :=
  ⟨some 0, "N", "O", "D", some (1, 1, 2025, 0, 0), some (1, 1, 2025, 1, 0),
    some 0, some 100⟩

/-- C5 counterexample: the claim says a flight ID that is not a
positive integer is rejected, but `addFlight` accepts `flightID = 0`
(its only ID validations are the `scanf` match count and the duplicate
scan): on an empty store the add succeeds and the flight with ID 0 is
appended. -/
theorem claim_C5_counterexample :
    (addFlight [] cxAddFlightInput).1 = 1
    ∧ (addFlight [] cxAddFlightInput).2.1
        = [⟨0, "N", "O", "D", ⟨1, 1, 2025, 0, 0⟩, ⟨1, 1, 2025, 1, 0⟩, 0, 100,
            List.replicate SEATMAP_BYTES 0⟩] := by
  constructor
  · decide
  · decide

/-- C5 witness: the amended rejection behaviour at concrete inputs. -/
theorem claim_C5_witness :
    addFlight [] ⟨none, "", "", "", none, none, none, none⟩
      = (0, [], some .invalidID)
    ∧ addFlight [sampleFlight]
        ⟨some 101, "X", "X", "X", none, none, none, none⟩
      = (0, [sampleFlight], some .duplicateID)
    ∧ (addPassenger ⟨[samplePassenger], 10⟩ ⟨"X", some 40, "P123"⟩).1 = 0
    ∧ (addPassenger ⟨[samplePassenger], 10⟩ ⟨"X", some 40, "P123"⟩).2.passengers
        = [samplePassenger] :=
  ⟨claim_C5_add_checks_amended.1 [] _ (by decide) rfl,
   claim_C5_add_checks_amended.2.1 [sampleFlight] _ 101 (by decide) rfl (by decide),
   (claim_C5_add_checks_amended.2.2 ⟨[samplePassenger], 10⟩ ⟨"X", some 40, "P123"⟩ 40
      rfl (by decide) (by decide)).1,
   (claim_C5_add_checks_amended.2.2 ⟨[samplePassenger], 10⟩ ⟨"X", some 40, "P123"⟩ 40
      rfl (by decide) (by decide)).2⟩

/-! ## Claim C6 -/

/-- C6: once `addFlight` reaches the departure/arrival comparison (the
flight limit, ID read, duplicate scan and both date reads having
passed), an arrival strictly earlier than the departure under
`compareDateTime` is rejected with the arrival-before-departure error
and the store is unchanged; an arrival equal to or later than the
departure passes this check (a later failure, if any, is a status or
seat-count error, never `arrivalBeforeDeparture`). -/
theorem claim_C6_arrival_check :
    ∀ fl inp fid dd dmo dy dh dmi ad amo ay ah ami,
      fl.length < MAX_FLIGHTS →
      inp.flightIDRead = some fid →
      fl.any (fun f => f.flightID = fid) = false →
      inp.depRead = some (dd, dmo, dy, dh, dmi) →
      inp.arrRead = some (ad, amo, ay, ah, ami) →
      ((compareDateTime (mkDateTime ad amo ay ah ami) (mkDateTime dd dmo dy dh dmi) < 0 →
         addFlight fl inp = (0, fl, some .arrivalBeforeDeparture))
       ∧ (0 ≤ compareDateTime (mkDateTime ad amo ay ah ami) (mkDateTime dd dmo dy dh dmi) →
         (addFlight fl inp).2.2 ≠ some .arrivalBeforeDeparture)) := by
  intro fl inp fid dd dmo dy dh dmi ad amo ay ah ami hlt hread hdup hdepr harrr
  constructor
  · intro hneg
    have hgt : compareDateTime (mkDateTime dd dmo dy dh dmi)
        (mkDateTime ad amo ay ah ami) > 0 :=
      (compareDateTime_pos_iff _ _).mpr ((compareDateTime_neg_iff _ _).mp hneg)
    simp [addFlight, show ¬fl.length ≥ MAX_FLIGHTS by omega, hread, hdup,
      hdepr, harrr, hgt]
  · intro hge
    have hngt : ¬compareDateTime (mkDateTime dd dmo dy dh dmi)
        (mkDateTime ad amo ay ah ami) > 0 := by
      rw [compareDateTime_pos_iff]
      rw [← compareDateTime_neg_iff]
      omega
    simp only [addFlight, show ¬fl.length ≥ MAX_FLIGHTS by omega, if_neg, hread,
      hdup, Bool.false_eq_true, hdepr, harrr]
    rcases hst : inp.statusRead with _ | s <;>
      rcases hse : inp.seatsRead with _ | v <;>
      simp [hngt, hst, hse] <;>
      split_ifs <;>
      simp

/-- C6 witness: a flight whose arrival 09:00 precedes its departure
10:00 is rejected with the arrival-before-departure error; with the
times swapped the comparison check passes. -/
theorem claim_C6_witness :
    addFlight [] ⟨some 7, "N", "O", "D", some (1, 6, 2025, 10, 0),
        some (1, 6, 2025, 9, 0), some 0, some 10⟩
      = (0, [], some .arrivalBeforeDeparture)
    ∧ (addFlight [] ⟨some 7, "N", "O", "D", some (1, 6, 2025, 9, 0),
        some (1, 6, 2025, 10, 0), some 0, some 10⟩).2.2
      ≠ some .arrivalBeforeDeparture :=
  ⟨(claim_C6_arrival_check [] _ 7 1 6 2025 10 0 1 6 2025 9 0 (by decide) rfl
      (by decide) rfl rfl).1 (by decide),
   (claim_C6_arrival_check [] _ 7 1 6 2025 9 0 1 6 2025 10 0 (by decide) rfl
      (by decide) rfl rfl).2 (by decide)⟩


/-! ## Claim C7 -/

instance : IsTotal Flight flightLeByDeparture :=
  ⟨fun a b => by
    unfold flightLeByDeparture compareFlightsByDeparture
    rcases dtLexLe_total a.departure b.departure with h | h
    · exact Or.inl ((compareDateTime_nonpos_iff _ _).mpr h)
    · exact Or.inr ((compareDateTime_nonpos_iff _ _).mpr h)⟩

instance : IsTrans Flight flightLeByDeparture :=
  ⟨fun a b c hab hbc => by
    unfold flightLeByDeparture compareFlightsByDeparture at *
    rw [compareDateTime_nonpos_iff] at *
    exact dtLexLe_trans hab hbc⟩

def cxSortA : Flight :=
  ⟨1, "A", "O", "D", ⟨10, 3, 2025, 8, 0⟩, ⟨10, 3, 2025, 9, 0⟩, 0, 5,
    List.replicate 32 0⟩

def cxSortB : Flight :=
  ⟨2, "B", "O", "D", ⟨1, 1, 2024, 9, 0⟩, ⟨1, 1, 2024, 10, 0⟩, 0, 5,
    List.replicate 32 0⟩

def cxSortC : Flight :=
  ⟨3, "C", "O", "D", ⟨10, 3, 2025, 7, 0⟩, ⟨10, 3, 2025, 8, 0⟩, 0, 5,
    List.replicate 32 0⟩

/-- C7: on a flight collection with at least two elements,
`sortFlightsByDeparture` returns success and produces a permutation of
the input sorted ascending by departure under the lexicographic
(year, month, day, hour, minute) comparison; in particular departures
[2025-03-10 08:00, 2024-01-01 09:00, 2025-03-10 07:00] are reordered
to [2024-01-01 09:00, 2025-03-10 07:00, 2025-03-10 08:00]. -/
theorem claim_C7_sort :
    (∀ fs : List Flight, 2 ≤ fs.length →
      (sortFlightsByDeparture fs).1 = 1
      ∧ ((sortFlightsByDeparture fs).2).Perm fs
      ∧ List.Pairwise (fun a b => dtLexLe a.departure b.departure)
          (sortFlightsByDeparture fs).2)
    ∧ (sortFlightsByDeparture [cxSortA, cxSortB, cxSortC]).2.map
          (fun f => f.departure)
        = [⟨1, 1, 2024, 9, 0⟩, ⟨10, 3, 2025, 7, 0⟩, ⟨10, 3, 2025, 8, 0⟩] := by
  constructor
  · intro fs h2
    have hne : ¬fs.length ≤ 1 := by omega
    unfold sortFlightsByDeparture
    rw [if_neg hne]
    refine ⟨rfl, List.perm_insertionSort _ _, ?_⟩
    have hs : List.Sorted flightLeByDeparture (fs.insertionSort flightLeByDeparture) :=
      List.sorted_insertionSort _ _
    exact hs.imp (fun hab => (compareDateTime_nonpos_iff _ _).mp hab)
  · decide

/-- C7 witness: the general sorting contract at the concrete
three-flight list of the claim. -/
theorem claim_C7_witness :
    (sortFlightsByDeparture [cxSortA, cxSortB, cxSortC]).1 = 1
    ∧ ((sortFlightsByDeparture [cxSortA, cxSortB, cxSortC]).2).Perm
        [cxSortA, cxSortB, cxSortC]
    ∧ List.Pairwise (fun a b => dtLexLe a.departure b.departure)
        (sortFlightsByDeparture [cxSortA, cxSortB, cxSortC]).2 :=
  claim_C7_sort.1 [cxSortA, cxSortB, cxSortC] (by decide)

/-! ## Claim C8 -/

/-- One interactive booking with all-valid input. -/
def bookStep (st : TicketStore) (nm : String) (fid seat : Int) : TicketStore :=
  (bookTicket st ⟨nm, some fid, some seat⟩).2

/-- C8: every successful `bookTicket` assigns the new ticket's ID as
the current count plus 1 (before the count is incremented);
consequently, booking three tickets (IDs 1, 2, 3), cancelling ID 1 and
booking again generates ID 3 — equal to the ID of a ticket still in
the store, so the final ID list is [2, 3, 3]. -/
theorem claim_C8_ticket_id :
    (∀ st inp fid seat, inp.flightIDRead = some fid → 0 < fid →
       inp.seatNoRead = some seat → 0 < seat →
       bookTicket st inp
         = (1, ⟨st.tickets
             ++ [⟨(st.tickets.length : Int) + 1, inp.passengerName, fid, seat⟩],
             if (st.tickets.length : Int) ≥ st.capacity then st.capacity * 2
             else st.capacity⟩))
    ∧ ((bookStep ((cancelTicket (bookStep (bookStep (bookStep initialTicketStore
          "A" 1 1) "B" 1 2) "C" 1 3) (some 1)).2) "D" 1 4).tickets.map Ticket.ticketID
        = [2, 3, 3]) := by
  constructor
  · intro st inp fid seat hf hfpos hs hspos
    simp [bookTicket, hf, hs, show ¬fid ≤ 0 by omega, show ¬seat ≤ 0 by omega]
  · decide

/-- C8 witness: the ID rule at a concrete empty store. -/
theorem claim_C8_witness :
    bookTicket initialTicketStore ⟨"A", some 1, some 1⟩
      = (1, ⟨[⟨1, "A", 1, 1⟩], 10⟩) :=
  claim_C8_ticket_id.1 initialTicketStore ⟨"A", some 1, some 1⟩ 1 1 rfl (by decide)
    rfl (by decide)

/-! ## Claim C9 -/

/-- C9: `bookTicket`, successful or failed, never touches the flight
store: the flight list of the combined state is unchanged, so no
flight's `availableSeats` is decremented and no seat-map byte (hence
no seat-map bit) is set or cleared. -/
theorem claim_C9_frame :
    ∀ sys inp,
      (bookTicketSys sys inp).2.flights = sys.flights
      ∧ ((bookTicketSys sys inp).2.flights.map Flight.availableSeats
          = sys.flights.map Flight.availableSeats)
      ∧ ((bookTicketSys sys inp).2.flights.map Flight.seatMap
          = sys.flights.map Flight.seatMap) := by
  intro sys inp
  rcases hb : bookTicket sys.ticketStore inp with ⟨r, st⟩
  simp [bookTicketSys, hb]

/-! ## Claim C10 -/

/-- Iterated interactive bookings. -/
def bookMany (st : TicketStore) (inps : List BookTicketInput) : TicketStore :=
  inps.foldl (fun s i => (bookTicket s i).2) st

/-- Iterated interactive passenger adds. -/
def addManyPassengers (st : PassengerStore) (inps : List AddPassengerInput) :
    PassengerStore :=
  inps.foldl (fun s i => (addPassenger s i).2) st

theorem bookTicket_capacity_zero (st : TicketStore) (h0 : st.capacity = 0)
    (inp : BookTicketInput) : ((bookTicket st inp).2).capacity = 0 := by
  have hcap : (if ((st.tickets.length : Int)) ≥ st.capacity then st.capacity * 2
      else st.capacity) = 0 := by
    rw [h0]
    split <;> simp
  rcases hf : inp.flightIDRead with _ | fid
  · simp [bookTicket, hf, hcap]
  · rcases hs : inp.seatNoRead with _ | seat
    · by_cases hfid : fid ≤ 0 <;> simp [bookTicket, hf, hs, hfid, hcap]
    · by_cases hfid : fid ≤ 0 <;> by_cases hseat : seat ≤ 0 <;>
        simp [bookTicket, hf, hs, hfid, hseat, hcap]

theorem addPassenger_capacity_zero (st : PassengerStore) (h0 : st.capacity = 0)
    (inp : AddPassengerInput) : ((addPassenger st inp).2).capacity = 0 := by
  have hcap : (if ((st.passengers.length : Int)) ≥ st.capacity then st.capacity * 2
      else st.capacity) = 0 := by
    rw [h0]
    split <;> simp
  rcases ha : inp.ageRead with _ | age
  · simp [addPassenger, ha, hcap]
  · by_cases hage : age ≤ 0
    · simp [addPassenger, ha, hage, hcap]
    · by_cases hdup : st.passengers.any (fun p => p.passport = inp.passport) <;>
        simp [addPassenger, ha, hage, hdup, hcap]

/-- C10: a successful load (file present, count line parsed as `N`)
sets the store capacity to exactly `N`, whatever the capacity was
before — in particular to 0 when the file declares 0 records — and
from a zero-capacity state the doubling step of every subsequent
`bookTicket` / `addPassenger` computes `2 * 0 = 0`, so the capacity
never grows again no matter how many adds follow. -/
theorem claim_C10_capacity :
    (∀ st c N rest, scanfIntNl c = some (N, rest) →
       (loadTickets st (some c)).1 = 1
       ∧ ((loadTickets st (some c)).2.1).capacity = N)
    ∧ (∀ st c N rest, scanfIntNl c = some (N, rest) →
       (loadPassengers st (some c)).1 = 1
       ∧ ((loadPassengers st (some c)).2.1).capacity = N)
    ∧ (∀ st : TicketStore, st.capacity = 0 →
       ∀ inps, (bookMany st inps).capacity = 0)
    ∧ (∀ st : PassengerStore, st.capacity = 0 →
       ∀ inps, (addManyPassengers st inps).capacity = 0) := by
  refine ⟨?_, ?_, ?_, ?_⟩
  · intro st c N rest h
    rcases hl : ticketLoadLoop N.toNat (fgetsLines rest) with ⟨ts, ms⟩
    constructor <;> simp [loadTickets, h, hl]
  · intro st c N rest h
    rcases hl : passengerLoadLoop N.toNat (fgetsLines rest) with ⟨ps, ms⟩
    constructor <;> simp [loadPassengers, h, hl]
  · intro st h0 inps
    induction inps generalizing st with
    | nil => exact h0
    | cons i t ih =>
      exact ih _ (bookTicket_capacity_zero st h0 i)
  · intro st h0 inps
    induction inps generalizing st with
    | nil => exact h0
    | cons i t ih =>
      exact ih _ (addPassenger_capacity_zero st h0 i)

/-- C10 witness: loading a file declaring 0 records from the initial
capacity-10 store leaves capacity 0, and a subsequent booking attempt
leaves it 0. -/
theorem claim_C10_witness :
    (loadTickets initialTicketStore (some ['0', '\n'])).1 = 1
    ∧ ((loadTickets initialTicketStore (some ['0', '\n'])).2.1).capacity = 0
    ∧ (bookMany ⟨[], 0⟩ [⟨"A", some 1, some 1⟩]).capacity = 0 :=
  ⟨(claim_C10_capacity.1 initialTicketStore ['0', '\n'] 0 [] (by decide)).1,
   (claim_C10_capacity.1 initialTicketStore ['0', '\n'] 0 [] (by decide)).2,
   claim_C10_capacity.2.2.1 ⟨[], 0⟩ (by decide) [⟨"A", some 1, some 1⟩]⟩

end FlightSim


















